import Mathlib

/-!
Verification development for the tradebot evaluation pipeline.

Prices, volumes and indicator values are modelled as exact rationals (`ℚ`);
candle lists mirror the JS arrays of `{t, o, h, l, c, v}` records.  The
`technicalindicators` library functions `EMA.calculate` and `ATR.calculate`
are embedded by their documented semantics: EMA is seeded with the simple
average of the first `period` values and then folds
`ema = (x - prev) * k + prev` with `k = 2/(period+1)`; ATR is the Wilder
smoothing (same fold with `k = 1/period`) of the true-range sequence, which
starts at the second candle.  Output lengths are `n - period + 1` for EMA and
`n - period` for ATR, matching the library.
-/

/-- A price candle: open time, open, high, low, close, volume. -/
structure Candle where
  t : ℕ
  o : ℚ
  h : ℚ
  l : ℚ
  c : ℚ
  v : ℚ
deriving DecidableEq, Repr

instance : Inhabited Candle := ⟨⟨0, 0, 0, 0, 0, 0⟩⟩

/-- JS `xs.slice(-n)`: the last `n` elements (the whole list when `n ≥ length`). -/
def sliceLast (n : ℕ) (xs : List ℚ) : List ℚ := xs.drop (xs.length - n)

/-- JS `candles.slice(-n)` on candle arrays. -/
def sliceLastC (n : ℕ) (xs : List Candle) : List Candle := xs.drop (xs.length - n)

/-- JS `xs.slice(-2)[0]`: the second-to-last element (the head when only one element). -/
def secondLastD (xs : List ℚ) (d : ℚ) : ℚ := xs.getD (xs.length - 2) d

/-- One step of an exponential smoothing: `(x - prev) * k + prev`. -/
def emaStep (k prev x : ℚ) : ℚ := (x - prev) * k + prev

/-- The list of smoothed values produced from a seed, seed first. -/
def emaFrom (k seed : ℚ) : List ℚ → List ℚ
  | [] => [seed]
  | x :: rest => seed :: emaFrom k (emaStep k seed x) rest

/-- Embedding of `EMA.calculate` of the technicalindicators library:
empty when fewer than `period` values, else the exponential average seeded by
the simple mean of the first `period` values, with `k = 2/(period+1)`. -/
def EMAcalc (period : ℕ) (values : List ℚ) : List ℚ :=
  if values.length < period ∨ period = 0 then []
  else emaFrom (2 / (period + 1 : ℚ)) ((values.take period).sum / (period : ℚ))
    (values.drop period)

/-- Wilder smoothing (`WEMA`): like `EMAcalc` but with `k = 1/period`. -/
def WEMAcalc (period : ℕ) (values : List ℚ) : List ℚ :=
  if values.length < period ∨ period = 0 then []
  else emaFrom (1 / (period : ℚ)) ((values.take period).sum / (period : ℚ))
    (values.drop period)

/-- True range of a candle given the previous candle close. -/
def trOf (prev cur : Candle) : ℚ :=
  max (cur.h - cur.l) (max |cur.h - prev.c| |cur.l - prev.c|)

/-- The true-range sequence of a candle list; it starts at the second candle. -/
def trueRanges : List Candle → List ℚ
  | a :: b :: rest => trOf a b :: trueRanges (b :: rest)
  | _ => []

/-- Embedding of `ATR.calculate` of the technicalindicators
library: Wilder smoothing of the true ranges. -/
def ATRcalc (period : ℕ) (candles : List Candle) : List ℚ :=
  WEMAcalc period (trueRanges candles)

/-- Adjacent-pair count used by the chop overlap loops. -/
def countPairs (p : Candle → Candle → Bool) : List Candle → ℕ
  | a :: b :: rest => (if p a b then 1 else 0) + countPairs p (b :: rest)
  | _ => 0

/-- Strictly increasing consecutive closes (the `hhhl` every-check). -/
def pairwiseInc : List ℚ → Bool
  | a :: b :: rest => decide (a < b) && pairwiseInc (b :: rest)
  | _ => true

/-- Strictly decreasing consecutive closes (the `lllh` every-check). -/
def pairwiseDec : List ℚ → Bool
  | a :: b :: rest => decide (b < a) && pairwiseDec (b :: rest)
  | _ => true

/-- A candle whose open and close lie between its low and high.  This is the
data-model reading of `{open, high, low, close}`; exchange-sourced OHLCV
records always satisfy it. -/
def WellFormed (cd : Candle) : Prop :=
  cd.l ≤ cd.o ∧ cd.o ≤ cd.h ∧ cd.l ≤ cd.c ∧ cd.c ≤ cd.h

instance (cd : Candle) : Decidable (WellFormed cd) := by
  unfold WellFormed; infer_instance

/-- Every candle of the series is well formed. -/
def WFseries (cs : List Candle) : Prop := ∀ cd ∈ cs, WellFormed cd

instance (cs : List Candle) : Decidable (WFseries cs) := by
  unfold WFseries; infer_instance

namespace BTC

/-! Embedding of `src/strategies/btc.js` (the configuration constants are the
module-level `ATR_PERIOD = 14`, `EMA_STACK = [20, 50, 100, 200]`,
`IMPULSE_VOLUME_FACTOR = 1.5`, `ENTRY_WINDOWS_UTC = [0,4,8,12,16,20]`). -/

def EMA_STACK : List ℕ := [20, 50, 100, 200]

/-- Result record of `detectTrend`. -/
structure TrendResult where
  trend : String
  reason : Option String := none
  ema200 : Option ℚ := none
deriving DecidableEq

/-- Number of bullish layers counted by `detectTrend`. -/
def bullishLayers (daily : List Candle) : ℕ :=
  let closes := daily.map (·.c)
  let lastClose := closes.getLastD 0
  let lastEMA := EMA_STACK.foldl
    (fun acc p =>
      match (EMAcalc p closes).getLast? with
      | none => false
      | some x => acc && decide (lastClose > x)) true
  let hhhl := pairwiseInc (sliceLast 6 closes)
  let slope20 := (EMAcalc 20 closes).getLastD 0 - secondLastD (EMAcalc 20 closes) 0
  [lastEMA, hhhl, decide (slope20 > 0)].count true

/-- Number of bearish layers counted by `detectTrend`. -/
def bearishLayers (daily : List Candle) : ℕ :=
  let closes := daily.map (·.c)
  let lastClose := closes.getLastD 0
  let lastEMAbear := EMA_STACK.foldl
    (fun acc p =>
      match (EMAcalc p closes).getLast? with
      | none => false
      | some x => acc && decide (lastClose < x)) true
  let lllh := pairwiseDec (sliceLast 6 closes)
  let slope20 := (EMAcalc 20 closes).getLastD 0 - secondLastD (EMAcalc 20 closes) 0
  [lastEMAbear, lllh, decide (slope20 < 0)].count true

/-- Embedding of `detectTrend(daily)` of btc.js: three-layer trend detection over the
EMA stack, close structure and EMA20 slope. -/
def detectTrend (daily : List Candle) : TrendResult :=
  let closes := daily.map (·.c)
  if closes.length < EMA_STACK.getD 3 0 then
    { trend := "invalid", reason := some "Not enough data" }
  else if 2 ≤ bullishLayers daily then
    { trend := "bull", ema200 := some ((EMAcalc 200 closes).getLastD 0) }
  else if 2 ≤ bearishLayers daily then
    { trend := "bear", ema200 := some ((EMAcalc 200 closes).getLastD 0) }
  else
    { trend := "invalid", reason := some "Layers not aligned" }

/-- JS `atrArr.slice(-1)[0]` for the 14-period ATR of a series. -/
def lastATRof (candles : List Candle) : ℚ := (ATRcalc 14 candles).getLastD 0

/-- The volume baseline of `detectOBFVG`: average volume over the last
`ATR_PERIOD` candles of the whole series. -/
def volAvgOf (candles : List Candle) : ℚ :=
  let volSlice := sliceLast 14 (candles.map (·.v))
  volSlice.sum / (max 1 volSlice.length : ℚ)

/-- The displacement-candle qualification test of the `detectOBFVG` scan at
index `i`: body above the series-final ATR, volume at least `1.5` times the
series-trailing average, and direction agreeing with the requested polarity. -/
def qualifiesOB (candles : List Candle) (polarity : String) (i : ℕ) : Bool :=
  let cur := candles.getD i default
  let prev := candles.getD (i - 1) default
  let body := |cur.c - cur.o|
  let isBullish := decide (cur.c > cur.o) && decide (cur.c > prev.c)
  let isBearish := decide (cur.c < cur.o) && decide (cur.c < prev.c)
  let volStrong := decide (cur.v ≥ volAvgOf candles * (3 / 2))
  decide (body > lastATRof candles) && volStrong &&
    ((decide (polarity = "bull") && isBullish) ||
     (decide (polarity = "bear") && isBearish))

/-- Result record of `detectOBFVG`. -/
structure OB where
  obLow : ℚ
  obHigh : ℚ
  originIndex : ℕ
  strength : ℚ
  type : String
deriving DecidableEq

/-- The backward walk of `detectOBFVG` starting at index `i`; the walk stops
before index `0`. -/
def scanOB (candles : List Candle) (polarity : String) : ℕ → Option OB
  | 0 => none
  | i + 1 =>
    if qualifiesOB candles polarity (i + 1) then
      some { obLow := (candles.getD (i + 1) default).l
             obHigh := (candles.getD (i + 1) default).h
             originIndex := i + 1
             strength := |(candles.getD (i + 1) default).c -
                          (candles.getD (i + 1) default).o| / lastATRof candles
             type := polarity }
    else scanOB candles polarity i

/-- Embedding of `detectOBFVG(candles, polarity)` of btc.js: walks backwards from the
second-to-last candle looking for a strong directional impulse. -/
def detectOBFVG (candles : List Candle) (polarity : String) : Option OB :=
  if candles.length < 14 + 2 then none
  else scanOB candles polarity (candles.length - 2)

/-- Result record of `validateRetest`. -/
structure Retest where
  index : ℕ
  candle : Candle
deriving DecidableEq

/-- The zone bounds handed to `validateRetest`. -/
structure ZoneMM where
  min : ℚ
  max : ℚ
deriving DecidableEq

/-- The per-candle retest check of `validateRetest` at index `i`: the candle
range must touch the zone and show a rejecting wick of more than `0.4` of the
full range with a confirming close. -/
def retestHit (cs : List Candle) (zone : ZoneMM) (polarity : String) (i : ℕ) : Bool :=
  let candle := cs.getD i default
  let touched := decide (candle.h ≥ zone.min) && decide (candle.l ≤ zone.max)
  touched &&
    (if polarity = "bear" then
       decide (candle.h - max candle.o candle.c > (2/5) * (candle.h - candle.l)) &&
         decide (candle.c < candle.o)
     else
       decide (min candle.o candle.c - candle.l > (2/5) * (candle.h - candle.l)) &&
         decide (candle.c > candle.o))

/-- The descending loop of `validateRetest`: visits indices `lo + k` down to
`lo`, returning the first (most recent) hit. -/
def retestLoop (cs : List Candle) (zone : ZoneMM) (polarity : String) (lo : ℕ) :
    ℕ → Option Retest
  | 0 => if retestHit cs zone polarity lo then
           some { index := lo, candle := cs.getD lo default }
         else none
  | k + 1 =>
    if retestHit cs zone polarity (lo + (k + 1)) then
      some { index := lo + (k + 1), candle := cs.getD (lo + (k + 1)) default }
    else retestLoop cs zone polarity lo k

/-- Embedding of `validateRetest(intraday, zone, polarity)` of btc.js: scans the most
recent ten candles, newest first, for a rejection inside the zone. -/
def validateRetest (intraday : List Candle) (zone : ZoneMM) (polarity : String) :
    Option Retest :=
  if intraday.length = 0 then none
  else retestLoop intraday zone polarity (intraday.length - 10)
    ((intraday.length - 1) - (intraday.length - 10))

/-- Zone record returned by `computeBuyZone` and `computeSellZone`. -/
structure Zone where
  min : ℚ
  max : ℚ
  midpoint : ℚ
  strength : ℚ
  note : Option String := none
  retest : Option Bool := none
deriving DecidableEq

/-- Embedding of `computeBuyZone(daily, intraday, trend)` of btc.js: bull order block
padded `0.25·ATR` below and `0.1·ATR` above. -/
def computeBuyZone (daily intraday : List Candle) (trend : String) : Option Zone :=
  match detectOBFVG intraday "bull" with
  | none => none
  | some ob =>
    let atr := lastATRof intraday
    let zoneMin := ob.obLow - (1/4) * atr
    let zoneMax := ob.obHigh + (1/10) * atr
    let midpoint := (zoneMin + zoneMax) / 2
    let origin := intraday.getD ob.originIndex default
    let last := intraday.getLastD default
    if last.o < origin.c ∧ last.c > origin.o then
      some { min := zoneMin, max := zoneMax, midpoint := midpoint,
             strength := ob.strength, note := some "origin overlap suspicious" }
    else
      some { min := zoneMin, max := zoneMax, midpoint := midpoint,
             strength := ob.strength }

/-- Embedding of `computeSellZone(daily, intraday, trend)` of btc.js: bear order block
padded `0.1·ATR` below and `0.25·ATR` above, with a later-higher-high
invalidation note and a retest flag. -/
def computeSellZone (daily intraday : List Candle) (trend : String) : Option Zone :=
  match detectOBFVG intraday "bear" with
  | none => none
  | some ob =>
    let atr := lastATRof intraday
    let zoneMin := ob.obLow - (1/10) * atr
    let zoneMax := ob.obHigh + (1/4) * atr
    let midpoint := (zoneMin + zoneMax) / 2
    let origin := intraday.getD ob.originIndex default
    let subsequent := intraday.drop (ob.originIndex + 1)
    if subsequent.any (fun cd => decide (cd.h > origin.h + atr * (1/4))) then
      some { min := zoneMin, max := zoneMax, midpoint := midpoint,
             strength := ob.strength, note := some "origin may be invalidated by later HH" }
    else
      some { min := zoneMin, max := zoneMax, midpoint := midpoint,
             strength := ob.strength,
             retest := some ((validateRetest intraday ⟨zoneMin, zoneMax⟩ "bear").isSome) }

/-- Result record of `computeSLTP`. -/
structure SLTP where
  sl : ℚ
  tp1 : ℚ
  tp2 : ℚ
  tp3 : ℚ
  risk : ℚ
deriving DecidableEq

/-- Embedding of `computeSLTP(zone, trend)` of btc.js: stop just outside the zone
(`0.995·min` for bull, `1.005·max` for bear) and take profits at one, two and
three risk distances from the midpoint. -/
def computeSLTP (zone : Option Zone) (trend : String) : Option SLTP :=
  match zone with
  | none => none
  | some z =>
    let sl := if trend = "bull" then z.min * (995/1000) else z.max * (1005/1000)
    let risk := if trend = "bull" then z.midpoint - sl else sl - z.midpoint
    some { sl := sl
           tp1 := if trend = "bull" then z.midpoint + risk else z.midpoint - risk
           tp2 := if trend = "bull" then z.midpoint + 2 * risk else z.midpoint - 2 * risk
           tp3 := if trend = "bull" then z.midpoint + 3 * risk else z.midpoint - 3 * risk
           risk := risk }

/-- Diagnostic record returned by `computeChopDetails`; fields that a given
early return leaves absent default to `none`, `false` or `0`. -/
structure ChopDetails where
  isChop : Bool
  reason : Option String := none
  chopScore : ℕ := 0
  condBodyVsAtr : Bool := false
  condWeakMovement : Bool := false
  condOverlap : Bool := false
  atrAvg : ℚ := 0
  rangeWidth : ℚ := 0
  deviation : Option ℚ := none
  highest : ℚ := 0
  lowest : ℚ := 0
deriving DecidableEq

/-- Embedding of `computeChopDetails(candles)` of btc.js: three chop conditions (small
bodies, weak net movement, inside-bar overlap count) over the last eight
candles; chop when at least two hold. -/
def computeChopDetails (candles : List Candle) : ChopDetails :=
  if candles.length < 30 then
    { isChop := false, reason := some "insufficient candles" }
  else
    let atrArr := ATRcalc 14 candles
    if atrArr.length < 14 then
      { isChop := false, reason := some "insufficient ATR" }
    else
      let last8 := sliceLastC 8 candles
      let atrLast8 := sliceLast 8 atrArr
      if atrLast8.length < 8 then
        { isChop := false, reason := some "insufficient ATR slice" }
      else
        let atrAvg := atrLast8.sum / (atrLast8.length : ℚ)
        let bodySizes := last8.map (fun cd => |cd.c - cd.o|)
        let avgBody := bodySizes.sum / (bodySizes.length : ℚ)
        let condBodyVsAtr := decide (avgBody < (3/10) * atrAvg)
        let netMove := |(last8.getLastD default).c - (last8.headD default).o|
        let condWeakMovement := decide (netMove < (1/5) * (atrAvg * 8))
        let overlapCount := countPairs
          (fun c1 c2 => decide (c2.h ≤ c1.h) && decide (c2.l ≥ c1.l)) last8
        let condOverlap := decide (4 ≤ overlapCount)
        let chopScore := [condBodyVsAtr, condWeakMovement, condOverlap].count true
        let window := sliceLastC 8 candles
        let highest := (window.map (·.h)).foldr max ((window.map (·.h)).getLastD 0)
        let lowest := (window.map (·.l)).foldr min ((window.map (·.l)).getLastD 0)
        let rangeWidth := highest - lowest
        { isChop := decide (2 ≤ chopScore)
          chopScore := chopScore
          condBodyVsAtr := condBodyVsAtr
          condWeakMovement := condWeakMovement
          condOverlap := condOverlap
          atrAvg := atrAvg
          rangeWidth := rangeWidth
          deviation := if 0 < atrAvg then some (rangeWidth / atrAvg) else none
          highest := highest
          lowest := lowest }

/-- Embedding of `isInSniperWindow(ts)` of btc.js: the UTC hour of the timestamp (in
milliseconds) is one of the 4h-aligned entry windows. -/
def isInSniperWindow (ts : ℕ) : Bool :=
  [0, 4, 8, 12, 16, 20].contains (ts / 3600000 % 24)

/-- The label chosen for a bull zone alert in `runBTC`. -/
def bullLabel (isChop sniperWindow : Bool) : String :=
  if isChop ∧ ¬sniperWindow then "BUY ZONE — CHOP (OUTSIDE SNIPER WINDOW)"
  else if isChop ∧ sniperWindow then "BUY ZONE — CHOP (SNIPER WINDOW OPEN, CAUTION)"
  else if ¬isChop ∧ ¬sniperWindow then "BUY ZONE — OUTSIDE SNIPER WINDOW (manual discretion)"
  else "VALID BUY ZONE"

/-- The label chosen for a bear zone alert in `runBTC`. -/
def bearLabel (retest : Option Bool) (isChop sniperWindow : Bool) : String :=
  let base := if retest = some true then "VALID SELL ZONE (retest observed)"
              else "VALID SELL ZONE (no retest)"
  if isChop ∧ ¬sniperWindow then "SELL ZONE — CHOP (OUTSIDE SNIPER WINDOW)"
  else if isChop ∧ sniperWindow then "SELL ZONE — CHOP (SNIPER WINDOW OPEN, CAUTION)"
  else if ¬isChop ∧ ¬sniperWindow then "SELL ZONE — OUTSIDE SNIPER WINDOW (manual discretion)"
  else base

/-- Outcome of one evaluation of `runBTC` on a fixed candle snapshot:
either an early return (invalid trend or no zone) or a zone alert message
sent with its label, SL/TP and chop diagnostics. -/
inductive BTCOutcome
  | trendInvalid (reason : Option String)
  | noZone (trend : String)
  | alert (trend : String) (zone : Zone) (sltp : Option SLTP) (label : String)
      (chop : ChopDetails) (sniperWindow : Bool)
  | unhandled (trend : String)
deriving DecidableEq

/-- Whether the outcome sent a zone recommendation. -/
def BTCOutcome.isAlert : BTCOutcome → Bool
  | .alert _ _ _ _ _ _ => true
  | _ => false

/-- The chop diagnostics attached to an alert outcome. -/
def BTCOutcome.chopOf : BTCOutcome → Option ChopDetails
  | .alert _ _ _ _ chop _ => some chop
  | _ => none

/-- The decision core of `runBTC` of btc.js, once the daily and intraday
snapshots are fetched; `now` is the `Date.now()` timestamp read during the
run.  Chop and the sniper window never suppress a zone: they only select the
warning label (`sendEvenIfChop` is hard-wired to true in the source). -/
def runBTCeval (daily intraday : List Candle) (now : ℕ) : BTCOutcome :=
  let chopDetails := computeChopDetails daily
  let trendObj := detectTrend daily
  let trend := trendObj.trend
  if trend = "invalid" then .trendInvalid trendObj.reason
  else
    let sniperWindow := isInSniperWindow now
    if trend = "bull" then
      match computeBuyZone daily intraday trend with
      | none => .noZone trend
      | some zone =>
        .alert trend zone (computeSLTP (some zone) "bull")
          (bullLabel chopDetails.isChop sniperWindow) chopDetails sniperWindow
    else if trend = "bear" then
      match computeSellZone daily intraday trend with
      | none => .noZone trend
      | some zone =>
        .alert trend zone (computeSLTP (some zone) "bear")
          (bearLabel zone.retest chopDetails.isChop sniperWindow) chopDetails sniperWindow
    else .unhandled trend

end BTC

namespace SOLatr

/-! Embedding of the SOL regime filter of `src/strategies/solatr.js`
(`ATR_PERIOD = 14`). -/

/-- Per-symbol chop parameters of `getChopParams`. -/
structure ChopParams where
  bodyVsAtrFactor : ℚ
  weakMovementFactor : ℚ
  overlapReq : ℕ
  lookbackWindow : ℕ
  requireMinCandles : ℕ
  lowVolumeFactor : ℚ
deriving DecidableEq

/-- Embedding of `getChopParams(symbol)` of solatr.js: the base thresholds, overridden for
SOL symbols. -/
def getChopParams (symbol : String) : ChopParams :=
  if (symbol.toUpper).startsWith "SOL" then
    { bodyVsAtrFactor := 45/100, weakMovementFactor := 28/100, overlapReq := 2,
      lookbackWindow := 8, requireMinCandles := 30, lowVolumeFactor := 80/100 }
  else
    { bodyVsAtrFactor := 40/100, weakMovementFactor := 25/100, overlapReq := 2,
      lookbackWindow := 8, requireMinCandles := 30, lowVolumeFactor := 85/100 }

/-- Diagnostic record returned by `isChop` of solatr.js. -/
structure SolChop where
  isChop : Bool
  reason : Option String := none
  chopScore : ℕ := 0
  condBodyVsAtr : Bool := false
  condWeakMovement : Bool := false
  condOverlap : Bool := false
  condLowVolume : Bool := false
  atrAvg : ℚ := 0
  overlapCount : ℕ := 0
deriving DecidableEq

/-- Embedding of `isChop(candles, symbol)` of solatr.js: four chop conditions (small
bodies, weak net movement, range-overlap count, low volume against a
50-candle baseline); chop when at least two hold. -/
def isChop (candles : List Candle) (symbol : String) : SolChop :=
  let params := getChopParams symbol
  if candles.length < params.requireMinCandles then
    { isChop := false, reason := some "insufficient candles" }
  else
    let atrArr := ATRcalc 14 candles
    let atrAvg := (sliceLast params.lookbackWindow atrArr).sum / (params.lookbackWindow : ℚ)
    let lastN := sliceLastC params.lookbackWindow candles
    let bodySizes := lastN.map (fun cd => |cd.c - cd.o|)
    let avgBody := bodySizes.sum / (lastN.length : ℚ)
    let condBodyVsAtr := decide (avgBody < params.bodyVsAtrFactor * atrAvg)
    let netMove := |(lastN.getLastD default).c - (lastN.headD default).o|
    let condWeakMovement :=
      decide (netMove < params.weakMovementFactor * atrAvg * (params.lookbackWindow : ℚ))
    let overlapCount := countPairs
      (fun c1 c2 => decide (min c1.h c2.h - max c1.l c2.l > (15/100) * atrAvg)) lastN
    let condOverlap := decide (params.overlapReq ≤ overlapCount)
    let volBaseline :=
      (sliceLast (max 50 params.lookbackWindow) (candles.map (·.v))).sum /
        (max 1 (max 50 params.lookbackWindow) : ℚ)
    let avgVolN := (lastN.map (·.v)).sum / (lastN.length : ℚ)
    let condLowVolume := decide (avgVolN < volBaseline * params.lowVolumeFactor)
    let chopScore :=
      [condBodyVsAtr, condWeakMovement, condOverlap, condLowVolume].count true
    { isChop := decide (2 ≤ chopScore)
      chopScore := chopScore
      condBodyVsAtr := condBodyVsAtr
      condWeakMovement := condWeakMovement
      condOverlap := condOverlap
      condLowVolume := condLowVolume
      atrAvg := atrAvg
      overlapCount := overlapCount }

/-- Embedding of `detectTrend(candles)` of solatr.js.  It differs from the
btc.js variant in its fallbacks: a missing EMA value is read as `0` in the
stack comparisons (JS `|| 0`), the structure checks require at least two
closes, and the slope is `0` when the EMA20 array is shorter than two.  The
`layers` diagnostic of the JS object is not modelled. -/
def detectTrend (candles : List Candle) : BTC.TrendResult :=
  let closes := candles.map (·.c)
  let needed := BTC.EMA_STACK.foldl max 0
  if closes.length < needed then
    { trend := "invalid", reason := some "Not enough data" }
  else
    let lastClose := closes.getLastD 0
    let lastEMA := BTC.EMA_STACK.all (fun p => decide (lastClose > (EMAcalc p closes).getLastD 0))
    let lastEMAbear := BTC.EMA_STACK.all (fun p => decide (lastClose < (EMAcalc p closes).getLastD 0))
    let last5 := sliceLast 6 closes
    let hhhl := decide (2 ≤ last5.length) && pairwiseInc last5
    let lllh := decide (2 ≤ last5.length) && pairwiseDec last5
    let ema20 := EMAcalc 20 closes
    let slope20 := if 2 ≤ ema20.length then ema20.getLastD 0 - secondLastD ema20 0 else 0
    let ema200 := (EMAcalc 200 closes).getLast?
    let bullishLayers := [lastEMA, hhhl, decide (slope20 > 0)].count true
    let bearishLayers := [lastEMAbear, lllh, decide (slope20 < 0)].count true
    if 2 ≤ bullishLayers then { trend := "bull", ema200 := ema200 }
    else if 2 ≤ bearishLayers then { trend := "bear", ema200 := ema200 }
    else { trend := "invalid", reason := some "Layers not aligned" }

/-- The backward scan of `detectOBFVG` of solatr.js: indices with a falsy
ATR or weak volume are skipped before the body and direction tests. -/
def detectOBFVGscan (candles : List Candle) (polarity : String) : ℕ → Option BTC.OB
  | 0 => none
  | i + 1 =>
    let cur := candles.getD (i + 1) default
    let prev := candles.getD i default
    let body := |cur.c - cur.o|
    let isBullish := cur.c > cur.o ∧ cur.c > prev.c
    let isBearish := cur.c < cur.o ∧ cur.c < prev.c
    let volStrong := cur.v ≥ BTC.volAvgOf candles * (3 / 2)
    if BTC.lastATRof candles = 0 ∨ ¬volStrong then detectOBFVGscan candles polarity i
    else if polarity = "bull" ∧ isBullish ∧ body > BTC.lastATRof candles then
      some { obLow := cur.l, obHigh := cur.h, originIndex := i + 1,
             strength := body / BTC.lastATRof candles, type := polarity }
    else if polarity = "bear" ∧ isBearish ∧ body > BTC.lastATRof candles then
      some { obLow := cur.l, obHigh := cur.h, originIndex := i + 1,
             strength := body / BTC.lastATRof candles, type := polarity }
    else detectOBFVGscan candles polarity i

/-- Embedding of `detectOBFVG(candles, polarity)` of solatr.js. -/
def detectOBFVG (candles : List Candle) (polarity : String) : Option BTC.OB :=
  if candles.length < 14 + 2 then none
  else detectOBFVGscan candles polarity (candles.length - 2)

/-- The per-candle retest check of `validateRetest` of solatr.js: unlike the
btc.js variant, only the wick fraction is tested, with no close
confirmation. -/
def retestHit (cs : List Candle) (zone : BTC.ZoneMM) (polarity : String) (i : ℕ) : Bool :=
  let candle := cs.getD i default
  let touched := decide (candle.h ≥ zone.min) && decide (candle.l ≤ zone.max)
  let wickSize := if polarity = "bull" then min candle.o candle.c - candle.l
                  else candle.h - max candle.o candle.c
  touched && decide (wickSize > (2/5) * (candle.h - candle.l))

/-- The descending loop of `validateRetest` of solatr.js. -/
def retestLoop (cs : List Candle) (zone : BTC.ZoneMM) (polarity : String) (lo : ℕ) :
    ℕ → Option BTC.Retest
  | 0 => if retestHit cs zone polarity lo then
           some { index := lo, candle := cs.getD lo default }
         else none
  | k + 1 =>
    if retestHit cs zone polarity (lo + (k + 1)) then
      some { index := lo + (k + 1), candle := cs.getD (lo + (k + 1)) default }
    else retestLoop cs zone polarity lo k

/-- Embedding of `validateRetest(candles, zone, polarity)` of solatr.js. -/
def validateRetest (candles : List Candle) (zone : BTC.ZoneMM) (polarity : String) :
    Option BTC.Retest :=
  if candles.length = 0 then none
  else retestLoop candles zone polarity (candles.length - 10)
    ((candles.length - 1) - (candles.length - 10))

/-- Embedding of `computeBuyZone(daily, intraday)` of solatr.js (the ATR
falls back to `0` when the ATR array is empty). -/
def computeBuyZone (daily intraday : List Candle) : Option BTC.Zone :=
  match detectOBFVG intraday "bull" with
  | none => none
  | some ob =>
    let atr := BTC.lastATRof intraday
    let zoneMin := ob.obLow - (1/4) * atr
    let zoneMax := ob.obHigh + (1/10) * atr
    let midpoint := (zoneMin + zoneMax) / 2
    let origin := intraday.getD ob.originIndex default
    let last := intraday.getLastD default
    if last.o < origin.c ∧ last.c > origin.o then
      some { min := zoneMin, max := zoneMax, midpoint := midpoint,
             strength := ob.strength, note := some "origin overlap suspicious" }
    else
      some { min := zoneMin, max := zoneMax, midpoint := midpoint,
             strength := ob.strength }

/-- Embedding of `computeSellZone(daily, intraday)` of solatr.js: no
later-higher-high invalidation note, always a retest flag. -/
def computeSellZone (daily intraday : List Candle) : Option BTC.Zone :=
  match detectOBFVG intraday "bear" with
  | none => none
  | some ob =>
    let atr := BTC.lastATRof intraday
    let zoneMin := ob.obLow - (1/10) * atr
    let zoneMax := ob.obHigh + (1/4) * atr
    let midpoint := (zoneMin + zoneMax) / 2
    some { min := zoneMin, max := zoneMax, midpoint := midpoint,
           strength := ob.strength,
           retest := some ((validateRetest intraday ⟨zoneMin, zoneMax⟩ "bear").isSome) }

/-- Embedding of `computeSLTP(zone, trend)` of solatr.js (textually the same
function as in btc.js). -/
def computeSLTP (zone : Option BTC.Zone) (trend : String) : Option BTC.SLTP :=
  match zone with
  | none => none
  | some z =>
    let sl := if trend = "bull" then z.min * (995/1000) else z.max * (1005/1000)
    let risk := if trend = "bull" then z.midpoint - sl else sl - z.midpoint
    some { sl := sl
           tp1 := if trend = "bull" then z.midpoint + risk else z.midpoint - risk
           tp2 := if trend = "bull" then z.midpoint + 2 * risk else z.midpoint - 2 * risk
           tp3 := if trend = "bull" then z.midpoint + 3 * risk else z.midpoint - 3 * risk
           risk := risk }

/-- Outcome of one evaluation of `runSOLatr` on a fixed snapshot: on the
normal path a Telegram alert is always sent, carrying the trend, the zone
(if any), the SL/TP levels (if any) and the chop diagnostics.  When the
chop branch finds no order-block zone the source dereferences the undefined
identifier `computeVolatilityZone`; the thrown ReferenceError is caught by
the surrounding try/catch and no alert is sent — that branch is the
`refErrorVolatilityZone` outcome. -/
inductive SOLOutcome
  | sent (trend : String) (zone : Option BTC.Zone) (sltp : Option BTC.SLTP)
      (chopDiag : SolChop)
  | refErrorVolatilityZone
deriving DecidableEq

/-- Whether the outcome sent an alert. -/
def SOLOutcome.isSent : SOLOutcome → Bool
  | .sent _ _ _ _ => true
  | _ => false

/-- The zone carried by a sent alert. -/
def SOLOutcome.zoneOf : SOLOutcome → Option BTC.Zone
  | .sent _ zone _ _ => zone
  | _ => none

/-- The SL/TP levels carried by a sent alert. -/
def SOLOutcome.sltpOf : SOLOutcome → Option BTC.SLTP
  | .sent _ _ sltp _ => sltp
  | _ => none

/-- The chop diagnostics carried by a sent alert. -/
def SOLOutcome.chopOf : SOLOutcome → Option SolChop
  | .sent _ _ _ chopDiag => some chopDiag
  | _ => none

/-- The trend string carried by a sent alert. -/
def SOLOutcome.trendOf : SOLOutcome → Option String
  | .sent trend _ _ _ => some trend
  | _ => none

/-- The decision core of `runSOLatr` of solatr.js once the daily and
intraday snapshots are fetched: chop diagnostics and trend are computed, an
invalid trend is promoted to `"chop"` when chop is detected, zones and
SL/TP are computed per branch, and the alert message is sent
unconditionally. -/
def runSOLatrEval (daily intraday : List Candle) : SOLOutcome :=
  let chopDiag := isChop daily "SOL/USDT"
  let trendObj := detectTrend daily
  let trend0 := trendObj.trend
  let trend := if trend0 = "invalid" ∧ chopDiag.isChop then "chop" else trend0
  let lastDir := if (intraday.getLastD default).c > (intraday.getLastD default).o
                 then "bull" else "bear"
  if trend = "bull" then
    .sent trend (computeBuyZone daily intraday)
      (computeSLTP (computeBuyZone daily intraday) "bull") chopDiag
  else if trend = "bear" then
    .sent trend (computeSellZone daily intraday)
      (computeSLTP (computeSellZone daily intraday) "bear") chopDiag
  else if trend = "chop" then
    if lastDir = "bull" then
      match computeBuyZone daily intraday with
      | some z => .sent trend (some z) (computeSLTP (some z) "bull") chopDiag
      | none => .refErrorVolatilityZone
    else
      match computeSellZone daily intraday with
      | some z => .sent trend (some z) (computeSLTP (some z) "bear") chopDiag
      | none => .refErrorVolatilityZone
  else .sent trend none none chopDiag

end SOLatr

namespace CTWL

/-! Embedding of `src/ctwl/btc.js`, the CTWL-1H predictive engine.  Its
inline `EMA` helper has exactly the semantics of `EMAcalc` (simple-average
seed, `k = 2/(period+1)`), so `EMAcalc` is reused. -/

/-- Result of `analyzeHTF`. -/
structure HTFResult where
  trend : String
deriving DecidableEq

/-- Embedding of `analyzeHTF(candles)`: three-layer trend of the 4h candles; the EMA
comparisons are false when an EMA array is empty (`undefined` in JS). -/
def analyzeHTF (candles : List Candle) : HTFResult :=
  if candles.length < 50 then { trend := "RANGE" }
  else
    let closes := candles.map (·.c)
    let lastClose := closes.getLastD 0
    let gt := fun (p : ℕ) =>
      match (EMAcalc p closes).getLast? with
      | none => false
      | some x => decide (lastClose > x)
    let lt := fun (p : ℕ) =>
      match (EMAcalc p closes).getLast? with
      | none => false
      | some x => decide (lastClose < x)
    let slope20 := (EMAcalc 20 closes).getLastD 0 - secondLastD (EMAcalc 20 closes) 0
    let hhhl := pairwiseInc (sliceLast 6 closes)
    let lllh := pairwiseDec (sliceLast 6 closes)
    let bullishLayers :=
      [gt 20 && gt 50 && gt 100 && gt 200, hhhl, decide (slope20 > 0)].count true
    let bearishLayers :=
      [lt 20 && lt 50 && lt 100 && lt 200, lllh, decide (slope20 < 0)].count true
    if 2 ≤ bullishLayers then { trend := "BULL" }
    else if 2 ≤ bearishLayers then { trend := "BEAR" }
    else { trend := "RANGE" }

/-- Embedding of `analyzeTrend(candles)`: direction of the last close step. -/
def analyzeTrend (candles : List Candle) : String :=
  if candles.length < 2 then "RANGE"
  else
    let a := candles.getLastD default
    let b := candles.getD (candles.length - 2) default
    if a.c > b.c then "BULL"
    else if a.c < b.c then "BEAR"
    else "RANGE"

/-- Result of `detectExecutionFlip`; `direction` is the empty string when the
JS value is null. -/
structure FlipResult where
  flipped : Bool
  direction : String
deriving DecidableEq

/-- Embedding of `detectExecutionFlip(candles)`: last 5m candle engulfing the previous
one. -/
def detectExecutionFlip (candles : List Candle) : FlipResult :=
  if candles.length < 2 then { flipped := false, direction := "" }
  else
    let a := candles.getLastD default
    let b := candles.getD (candles.length - 2) default
    if a.c > b.h ∧ a.l > b.l then { flipped := true, direction := "BULL" }
    else if a.c < b.l ∧ a.h < b.h then { flipped := true, direction := "BEAR" }
    else { flipped := false, direction := "" }

/-- The inline `ATR(candles)` helper of ctwl/btc.js: plain average of the
true ranges. -/
def ATRsimple (candles : List Candle) : ℚ :=
  (trueRanges candles).sum / ((candles.length : ℚ) - 1)

/-- Result of `volatilityGate`. -/
structure VolState where
  expand : Bool
  state : String
deriving DecidableEq

/-- Embedding of `volatilityGate(candles)`: 14-candle average true range against the
50-candle one. -/
def volatilityGate (candles : List Candle) : VolState :=
  if candles.length < 50 then { expand := false, state := "COMPRESSED" }
  else
    let fast := ATRsimple (sliceLastC 14 candles)
    let slow := ATRsimple (sliceLastC 50 candles)
    let expand := decide (fast > slow * (11/10))
    { expand := expand, state := if expand then "EXPANDING" else "COMPRESSED" }

/-- Entry zone of `buildEntryZone`. -/
structure EntryZone where
  entry : ℚ
  invalidation : ℚ
deriving DecidableEq

/-- Embedding of `buildEntryZone(candles, direction)`: midpoint of the last 5m candle body
side to its extreme. -/
def buildEntryZone (candles : List Candle) (direction : String) : Option EntryZone :=
  let cd := candles.getLastD default
  if direction = "BULL" then some { entry := (cd.l + cd.c) / 2, invalidation := cd.l }
  else if direction = "BEAR" then some { entry := (cd.h + cd.c) / 2, invalidation := cd.h }
  else none

/-- Embedding of `computeProbability`: additive evidence score capped at 100. -/
def computeProbability (htf : HTFResult) (ltf1h ltf15m : String) (flip : FlipResult)
    (volatility : VolState) (direction : String) (currentPrice : ℚ)
    (zone : EntryZone) : ℚ :=
  if (direction = "BULL" ∧ currentPrice < zone.invalidation) ∨
     (direction = "BEAR" ∧ currentPrice > zone.invalidation) then 0
  else
    let score : ℚ :=
      (if htf.trend = direction then 40 else 0) +
      (if ltf1h = direction then 20 else 0) +
      (if ltf15m = direction then 15 else 0) +
      (if flip.flipped ∧ flip.direction = direction then 15 else 0) +
      (if volatility.expand then 10 else 0)
    min score 100

/-- The value returned by one run of `runCTWL1H_PREDICT`: either a
`NO_TRADE` with a reason, or a trade permission payload; both are stamped
with the `Date.now()` timestamp of the run. -/
inductive CTWLResult
  | noTrade (reason : String) (timestamp : ℕ)
  | trade (symbol direction : String) (validBoundary invalidBoundary probability : ℚ)
      (htf ltf1h ltf15m volatility : String) (timestamp : ℕ)
deriving DecidableEq

/-- The same result with the run timestamp erased. -/
def CTWLResult.stripTime : CTWLResult → CTWLResult
  | .noTrade reason _ => .noTrade reason 0
  | .trade s d vb ib p h l1 l15 v _ => .trade s d vb ib p h l1 l15 v 0

/-- The decision core of `runCTWL1H_PREDICT(symbol)` of ctwl/btc.js, once
the four candle series are fetched; `now` is the `Date.now()` value read
when the result object is built. -/
def runCTWL1H_PREDICT (symbol : String) (c5m c15m c1h c4h : List Candle)
    (now : ℕ) : CTWLResult :=
  if c5m.length < 50 ∨ c15m.length < 50 ∨ c1h.length < 100 ∨ c4h.length < 50 then
    .noTrade "INSUFFICIENT_DATA" now
  else
    let htf := analyzeHTF c4h
    let ltf1h := analyzeTrend c1h
    let ltf15m := analyzeTrend c15m
    let flip := detectExecutionFlip c5m
    let volatility := volatilityGate c1h
    let direction := if flip.flipped then flip.direction else htf.trend
    if direction = "RANGE" then .noTrade "NO_CLEAR_DIRECTION" now
    else
      match buildEntryZone c5m direction with
      | none => .noTrade "ZONE_INVALID" now
      | some zone =>
        let currentPrice := (c1h.getLastD default).c
        if (direction = "BULL" ∧ currentPrice < zone.invalidation) ∨
           (direction = "BEAR" ∧ currentPrice > zone.invalidation) then
          .noTrade "PRICE_PAST_INVALID_BOUNDARY" now
        else
          let probability := computeProbability htf ltf1h ltf15m flip volatility
            direction currentPrice zone
          if probability < 65 then .noTrade "PROBABILITY_TOO_LOW" now
          else
            .trade symbol direction zone.entry zone.invalidation probability
              htf.trend ltf1h ltf15m volatility.state now

end CTWL

/-! Concrete candle series used to instantiate the theorems. -/

/-- Sixteen 4h candles: fourteen quiet candles, a strong bullish impulse at
index 14 (body 10, volume 100) and a quiet closing candle. -/
def impulseSeries : List Candle :=
  [⟨0, 100, 101, 99, 100, 10⟩, ⟨1, 100, 101, 99, 100, 10⟩,
   ⟨2, 100, 101, 99, 100, 10⟩, ⟨3, 100, 101, 99, 100, 10⟩,
   ⟨4, 100, 101, 99, 100, 10⟩, ⟨5, 100, 101, 99, 100, 10⟩,
   ⟨6, 100, 101, 99, 100, 10⟩, ⟨7, 100, 101, 99, 100, 10⟩,
   ⟨8, 100, 101, 99, 100, 10⟩, ⟨9, 100, 101, 99, 100, 10⟩,
   ⟨10, 100, 101, 99, 100, 10⟩, ⟨11, 100, 101, 99, 100, 10⟩,
   ⟨12, 100, 101, 99, 100, 10⟩, ⟨13, 100, 101, 99, 100, 10⟩,
   ⟨14, 100, 110, 100, 110, 100⟩, ⟨15, 110, 111, 109, 110, 10⟩]

/-- Variant of `impulseSeries` with a different open on the final candle: the final open
changes neither the ATR nor the trailing volume average. -/
def impulseSeriesAltOpen : List Candle :=
  [⟨0, 100, 101, 99, 100, 10⟩, ⟨1, 100, 101, 99, 100, 10⟩,
   ⟨2, 100, 101, 99, 100, 10⟩, ⟨3, 100, 101, 99, 100, 10⟩,
   ⟨4, 100, 101, 99, 100, 10⟩, ⟨5, 100, 101, 99, 100, 10⟩,
   ⟨6, 100, 101, 99, 100, 10⟩, ⟨7, 100, 101, 99, 100, 10⟩,
   ⟨8, 100, 101, 99, 100, 10⟩, ⟨9, 100, 101, 99, 100, 10⟩,
   ⟨10, 100, 101, 99, 100, 10⟩, ⟨11, 100, 101, 99, 100, 10⟩,
   ⟨12, 100, 101, 99, 100, 10⟩, ⟨13, 100, 101, 99, 100, 10⟩,
   ⟨14, 100, 110, 100, 110, 100⟩, ⟨15, 42, 111, 109, 110, 10⟩]

/-- Variant of `impulseSeries` with a huge volume on the final candle, inflating the
trailing volume average that the impulse at index 14 is tested against. -/
def impulseSeriesLateVolume : List Candle :=
  [⟨0, 100, 101, 99, 100, 10⟩, ⟨1, 100, 101, 99, 100, 10⟩,
   ⟨2, 100, 101, 99, 100, 10⟩, ⟨3, 100, 101, 99, 100, 10⟩,
   ⟨4, 100, 101, 99, 100, 10⟩, ⟨5, 100, 101, 99, 100, 10⟩,
   ⟨6, 100, 101, 99, 100, 10⟩, ⟨7, 100, 101, 99, 100, 10⟩,
   ⟨8, 100, 101, 99, 100, 10⟩, ⟨9, 100, 101, 99, 100, 10⟩,
   ⟨10, 100, 101, 99, 100, 10⟩, ⟨11, 100, 101, 99, 100, 10⟩,
   ⟨12, 100, 101, 99, 100, 10⟩, ⟨13, 100, 101, 99, 100, 10⟩,
   ⟨14, 100, 110, 100, 110, 100⟩, ⟨15, 110, 111, 109, 110, 10000⟩]

/-- Variant of `impulseSeries` whose final candle closes above its open, so
that the last intraday direction reads bullish. -/
def impulseSeriesUp : List Candle :=
  [⟨0, 100, 101, 99, 100, 10⟩, ⟨1, 100, 101, 99, 100, 10⟩,
   ⟨2, 100, 101, 99, 100, 10⟩, ⟨3, 100, 101, 99, 100, 10⟩,
   ⟨4, 100, 101, 99, 100, 10⟩, ⟨5, 100, 101, 99, 100, 10⟩,
   ⟨6, 100, 101, 99, 100, 10⟩, ⟨7, 100, 101, 99, 100, 10⟩,
   ⟨8, 100, 101, 99, 100, 10⟩, ⟨9, 100, 101, 99, 100, 10⟩,
   ⟨10, 100, 101, 99, 100, 10⟩, ⟨11, 100, 101, 99, 100, 10⟩,
   ⟨12, 100, 101, 99, 100, 10⟩, ⟨13, 100, 101, 99, 100, 10⟩,
   ⟨14, 100, 110, 100, 110, 100⟩, ⟨15, 219/2, 111, 109, 110, 10⟩]

/-- Two hundred identical daily candles: no trend layer holds. -/
def flatDaily200 : List Candle :=
  (List.range 200).map (fun i => ⟨i, 100, 101, 99, 100, 10⟩)

/-- Sixteen point candles (all prices equal): every true range is zero, so
the 14-period ATR is exactly zero. -/
def flatPoint16 : List Candle :=
  [⟨0, 5, 5, 5, 5, 1⟩, ⟨1, 5, 5, 5, 5, 1⟩,
   ⟨2, 5, 5, 5, 5, 1⟩, ⟨3, 5, 5, 5, 5, 1⟩,
   ⟨4, 5, 5, 5, 5, 1⟩, ⟨5, 5, 5, 5, 5, 1⟩,
   ⟨6, 5, 5, 5, 5, 1⟩, ⟨7, 5, 5, 5, 5, 1⟩,
   ⟨8, 5, 5, 5, 5, 1⟩, ⟨9, 5, 5, 5, 5, 1⟩,
   ⟨10, 5, 5, 5, 5, 1⟩, ⟨11, 5, 5, 5, 5, 1⟩,
   ⟨12, 5, 5, 5, 5, 1⟩, ⟨13, 5, 5, 5, 5, 1⟩,
   ⟨14, 5, 5, 5, 5, 1⟩, ⟨15, 5, 5, 5, 5, 1⟩]

/-- Thirty identical candles with small bodies: a regime-filter window. -/
def flat30 : List Candle :=
  [⟨0, 100, 101, 99, 100, 10⟩, ⟨1, 100, 101, 99, 100, 10⟩,
   ⟨2, 100, 101, 99, 100, 10⟩, ⟨3, 100, 101, 99, 100, 10⟩,
   ⟨4, 100, 101, 99, 100, 10⟩, ⟨5, 100, 101, 99, 100, 10⟩,
   ⟨6, 100, 101, 99, 100, 10⟩, ⟨7, 100, 101, 99, 100, 10⟩,
   ⟨8, 100, 101, 99, 100, 10⟩, ⟨9, 100, 101, 99, 100, 10⟩,
   ⟨10, 100, 101, 99, 100, 10⟩, ⟨11, 100, 101, 99, 100, 10⟩,
   ⟨12, 100, 101, 99, 100, 10⟩, ⟨13, 100, 101, 99, 100, 10⟩,
   ⟨14, 100, 101, 99, 100, 10⟩, ⟨15, 100, 101, 99, 100, 10⟩,
   ⟨16, 100, 101, 99, 100, 10⟩, ⟨17, 100, 101, 99, 100, 10⟩,
   ⟨18, 100, 101, 99, 100, 10⟩, ⟨19, 100, 101, 99, 100, 10⟩,
   ⟨20, 100, 101, 99, 100, 10⟩, ⟨21, 100, 101, 99, 100, 10⟩,
   ⟨22, 100, 101, 99, 100, 10⟩, ⟨23, 100, 101, 99, 100, 10⟩,
   ⟨24, 100, 101, 99, 100, 10⟩, ⟨25, 100, 101, 99, 100, 10⟩,
   ⟨26, 100, 101, 99, 100, 10⟩, ⟨27, 100, 101, 99, 100, 10⟩,
   ⟨28, 100, 101, 99, 100, 10⟩, ⟨29, 100, 101, 99, 100, 10⟩]

/-- Thirty candles whose last eight form a high-volatility zigzag on falling
volume: net movement is nil and the ranges overlap broadly (two of the four
solatr conditions, plus low volume), yet the bodies are large and no candle
is an inside bar, so only one of the three btc conditions holds. -/
def chopCex30 : List Candle :=
  [⟨0, 100, 110, 90, 100, 100⟩, ⟨1, 100, 110, 90, 100, 100⟩,
   ⟨2, 100, 110, 90, 100, 100⟩, ⟨3, 100, 110, 90, 100, 100⟩,
   ⟨4, 100, 110, 90, 100, 100⟩, ⟨5, 100, 110, 90, 100, 100⟩,
   ⟨6, 100, 110, 90, 100, 100⟩, ⟨7, 100, 110, 90, 100, 100⟩,
   ⟨8, 100, 110, 90, 100, 100⟩, ⟨9, 100, 110, 90, 100, 100⟩,
   ⟨10, 100, 110, 90, 100, 100⟩, ⟨11, 100, 110, 90, 100, 100⟩,
   ⟨12, 100, 110, 90, 100, 100⟩, ⟨13, 100, 110, 90, 100, 100⟩,
   ⟨14, 100, 110, 90, 100, 100⟩, ⟨15, 100, 110, 90, 100, 100⟩,
   ⟨16, 100, 110, 90, 100, 100⟩, ⟨17, 100, 110, 90, 100, 100⟩,
   ⟨18, 100, 110, 90, 100, 100⟩, ⟨19, 100, 110, 90, 100, 100⟩,
   ⟨20, 100, 110, 90, 100, 100⟩, ⟨21, 100, 110, 90, 100, 100⟩,
   ⟨22, 90, 111, 89, 110, 10⟩, ⟨23, 110, 112, 89, 90, 10⟩,
   ⟨24, 90, 113, 89, 110, 10⟩, ⟨25, 110, 114, 89, 90, 10⟩,
   ⟨26, 90, 115, 89, 110, 10⟩, ⟨27, 110, 116, 89, 90, 10⟩,
   ⟨28, 90, 117, 89, 110, 10⟩, ⟨29, 110, 118, 89, 90, 10⟩]

/-- Three candles whose last one touches the zone `[100, 101]` and shows a
long lower-wick bullish rejection. -/
def retestSeries : List Candle :=
  [⟨0, 100, 101, 99, 100, 10⟩, ⟨1, 100, 101, 99, 100, 10⟩,
   ⟨2, 203/2, 102, 99, 509/5, 10⟩]

/-- A bull zone literal with unit width, used to instantiate the SL/TP
invariant. -/
def zoneW : BTC.Zone := { min := 1, max := 2, midpoint := 3/2, strength := 1 }

/-- The zone that `computeBuyZone` detects on `impulseSeries` (ATR `124/49`,
impulse at index 14). -/
def zoneLit : BTC.Zone :=
  { min := 4869/49, max := 27012/245, midpoint := 51357/490, strength := 245/62 }

/-- The retest that `validateRetest` finds on `retestSeries` for the zone
`[100, 101]`. -/
def retestLit : BTC.Retest := { index := 2, candle := ⟨2, 203/2, 102, 99, 509/5, 10⟩ }

/-- Sixteen 4h candles mirroring `impulseSeries`: fourteen quiet candles, a
strong bearish impulse at index 14 (body 10, volume 100) and a quiet closing
candle below the impulse origin. -/
def bearSeries : List Candle :=
  [⟨0, 110, 111, 109, 110, 10⟩, ⟨1, 110, 111, 109, 110, 10⟩,
   ⟨2, 110, 111, 109, 110, 10⟩, ⟨3, 110, 111, 109, 110, 10⟩,
   ⟨4, 110, 111, 109, 110, 10⟩, ⟨5, 110, 111, 109, 110, 10⟩,
   ⟨6, 110, 111, 109, 110, 10⟩, ⟨7, 110, 111, 109, 110, 10⟩,
   ⟨8, 110, 111, 109, 110, 10⟩, ⟨9, 110, 111, 109, 110, 10⟩,
   ⟨10, 110, 111, 109, 110, 10⟩, ⟨11, 110, 111, 109, 110, 10⟩,
   ⟨12, 110, 111, 109, 110, 10⟩, ⟨13, 110, 111, 109, 110, 10⟩,
   ⟨14, 110, 110, 100, 100, 100⟩, ⟨15, 100, 101, 99, 100, 10⟩]

/-- The zone that `computeSellZone` detects on `bearSeries` (ATR `124/49`,
bearish impulse at index 14, no later higher high, no bearish retest). -/
def zoneSellLit : BTC.Zone :=
  { min := 24438/245, max := 5421/49, midpoint := 51543/490, strength := 245/62,
    retest := some false }

/-! Helper lemmas about the indicator embeddings. -/

/-- Elements of equal prefixes agree at every in-prefix position. -/
theorem getD_eq_of_take_eq {s1 s2 : List Candle} {i j : ℕ} (hj : j ≤ i)
    (hpre : s1.take (i + 1) = s2.take (i + 1)) :
    s1.getD j default = s2.getD j default := by
  have hj1 : j < i + 1 := by omega
  have h := congrArg (fun l => l[j]?) hpre
  simp only [List.getElem?_take, hj1, if_true] at h
  rw [List.getD_eq_getElem?_getD, List.getD_eq_getElem?_getD, h]

/-- The last element of an `emaFrom` run is the fold of the step function. -/
theorem emaFrom_getLastD (k : ℚ) (xs : List ℚ) : ∀ seed d,
    (emaFrom k seed xs).getLastD d = xs.foldl (fun p x => emaStep k p x) seed := by
  induction xs with
  | nil => intro seed d; rfl
  | cons x rest ih =>
    intro seed d
    simp only [emaFrom, List.getLastD_cons, List.foldl_cons]
    exact ih (emaStep k seed x) seed

/-- The exponential-smoothing fold preserves nonnegativity for `0 ≤ k ≤ 1`. -/
theorem foldl_emaStep_nonneg {k : ℚ} (hk0 : 0 ≤ k) (hk1 : k ≤ 1) (xs : List ℚ) :
    ∀ seed, 0 ≤ seed → (∀ x ∈ xs, 0 ≤ x) →
      0 ≤ xs.foldl (fun p x => emaStep k p x) seed := by
  induction xs with
  | nil => intro seed hs _; exact hs
  | cons x rest ih =>
    intro seed hs hxs
    simp only [List.foldl_cons]
    refine ih (emaStep k seed x) ?_ (fun y hy => hxs y (List.mem_cons_of_mem x hy))
    have hx : 0 ≤ x := hxs x (List.mem_cons_self x rest)
    have : emaStep k seed x = x * k + seed * (1 - k) := by unfold emaStep; ring
    rw [this]
    have := mul_nonneg hx hk0
    have := mul_nonneg hs (by linarith : (0:ℚ) ≤ 1 - k)
    linarith

/-- When the exponential-smoothing fold of nonnegative inputs ends at zero,
the seed and every input were zero (for `0 < k < 1`). -/
theorem foldl_emaStep_zero {k : ℚ} (hk0 : 0 < k) (hk1 : k < 1) (xs : List ℚ) :
    ∀ seed, 0 ≤ seed → (∀ x ∈ xs, 0 ≤ x) →
      xs.foldl (fun p x => emaStep k p x) seed = 0 →
      seed = 0 ∧ ∀ x ∈ xs, x = 0 := by
  induction xs with
  | nil => intro seed _ _ h; exact ⟨h, by simp⟩
  | cons x rest ih =>
    intro seed hs hxs h
    simp only [List.foldl_cons] at h
    have hx : 0 ≤ x := hxs x (List.mem_cons_self x rest)
    have hstep : emaStep k seed x = x * k + seed * (1 - k) := by unfold emaStep; ring
    have hstep0 : 0 ≤ emaStep k seed x := by
      rw [hstep]
      have := mul_nonneg hx (le_of_lt hk0)
      have := mul_nonneg hs (by linarith : (0:ℚ) ≤ 1 - k)
      linarith
    obtain ⟨hz, hrest⟩ :=
      ih (emaStep k seed x) hstep0 (fun y hy => hxs y (List.mem_cons_of_mem x hy)) h
    rw [hstep] at hz
    have hxk : 0 ≤ x * k := mul_nonneg hx (le_of_lt hk0)
    have hsk : 0 ≤ seed * (1 - k) := mul_nonneg hs (by linarith)
    have hx0 : x * k = 0 := by linarith
    have hs0 : seed * (1 - k) = 0 := by linarith
    have hxz : x = 0 := by
      rcases mul_eq_zero.mp hx0 with h1 | h1
      · exact h1
      · exact absurd h1 (ne_of_gt hk0)
    have hsz : seed = 0 := by
      rcases mul_eq_zero.mp hs0 with h1 | h1
      · exact h1
      · exact absurd h1 (by linarith)
    refine ⟨hsz, ?_⟩
    intro y hy
    rcases List.mem_cons.mp hy with rfl | hy2
    · exact hxz
    · exact hrest y hy2

/-- A list of nonnegative rationals with zero sum is identically zero. -/
theorem sum_zero_of_nonneg {xs : List ℚ} (hx : ∀ x ∈ xs, 0 ≤ x) (hs : xs.sum = 0) :
    ∀ x ∈ xs, x = 0 := by
  induction xs with
  | nil => simp
  | cons x rest ih =>
    have hxx : 0 ≤ x := hx x (List.mem_cons_self x rest)
    have hrest : ∀ y ∈ rest, 0 ≤ y := fun y hy => hx y (List.mem_cons_of_mem x hy)
    have hsum : 0 ≤ rest.sum := List.sum_nonneg hrest
    simp only [List.sum_cons] at hs
    have hx0 : x = 0 := by linarith
    have hr0 : rest.sum = 0 := by linarith
    intro y hy
    rcases List.mem_cons.mp hy with rfl | hy2
    · exact hx0
    · exact ih hrest hr0 y hy2

/-- True ranges are nonnegative. -/
theorem trueRanges_nonneg (cs : List Candle) : ∀ x ∈ trueRanges cs, 0 ≤ x := by
  induction cs with
  | nil => simp [trueRanges]
  | cons a t ih =>
    cases t with
    | nil => simp [trueRanges]
    | cons b rest =>
      intro x hx
      rcases List.mem_cons.mp hx with rfl | hx2
      · unfold trOf
        have h1 : (0:ℚ) ≤ |b.h - a.c| := abs_nonneg _
        have h2 : |b.h - a.c| ≤ max |b.h - a.c| |b.l - a.c| := le_max_left _ _
        have h3 : max |b.h - a.c| |b.l - a.c| ≤
            max (b.h - b.l) (max |b.h - a.c| |b.l - a.c|) := le_max_right _ _
        linarith
      · exact ih x hx2

/-- The length of a true-range sequence is one less than the candle count. -/
theorem trueRanges_length (cs : List Candle) : (trueRanges cs).length = cs.length - 1 := by
  induction cs with
  | nil => rfl
  | cons a t ih =>
    cases t with
    | nil => rfl
    | cons b rest =>
      simp only [trueRanges, List.length_cons] at ih ⊢
      omega

/-- The true range at position `j` is computed from the candle pair at
positions `j` and `j + 1`. -/
theorem trueRanges_getD (cs : List Candle) : ∀ j, j + 1 < cs.length →
    (trueRanges cs).getD j 0 = trOf (cs.getD j default) (cs.getD (j + 1) default) := by
  induction cs with
  | nil => intro j hj; simp at hj
  | cons a t ih =>
    cases t with
    | nil =>
      intro j hj
      simp only [List.length_cons, List.length_nil] at hj
      omega
    | cons b rest =>
      intro j hj
      cases j with
      | zero => rfl
      | succ j =>
        have hj2 : j + 1 < (b :: rest).length := by
          simp only [List.length_cons] at hj ⊢; omega
        have := ih j hj2
        simpa [trueRanges, List.getD_cons_succ] using this

/-- The length of an `emaFrom` run. -/
theorem emaFrom_length (k : ℚ) (xs : List ℚ) : ∀ seed,
    (emaFrom k seed xs).length = xs.length + 1 := by
  induction xs with
  | nil => intro seed; rfl
  | cons x rest ih =>
    intro seed
    simp only [emaFrom, List.length_cons, ih]

/-- The length of a WEMA run over a long-enough input. -/
theorem WEMAcalc_length (p : ℕ) (xs : List ℚ) (hp : p ≠ 0) (hlen : p ≤ xs.length) :
    (WEMAcalc p xs).length = xs.length - p + 1 := by
  unfold WEMAcalc
  rw [if_neg (by omega)]
  rw [emaFrom_length, List.length_drop]

/-- The last WEMA value of nonnegative inputs is nonnegative. -/
theorem WEMAcalc_getLastD_nonneg (p : ℕ) (xs : List ℚ) (hx : ∀ x ∈ xs, 0 ≤ x) :
    0 ≤ (WEMAcalc p xs).getLastD 0 := by
  unfold WEMAcalc
  split
  · simp
  · rename_i hcond
    have hp : p ≠ 0 := fun h => hcond (Or.inr h)
    have hp1 : 1 ≤ (p:ℚ) := by
      have : 1 ≤ p := Nat.one_le_iff_ne_zero.mpr hp
      exact_mod_cast this
    rw [emaFrom_getLastD]
    refine foldl_emaStep_nonneg ?_ ?_ _ _ ?_ ?_
    · positivity
    · rw [div_le_one (by linarith)]; linarith
    · have hsum : 0 ≤ (xs.take p).sum :=
        List.sum_nonneg (fun y hy => hx y (List.mem_of_mem_take hy))
      positivity
    · exact fun y hy => hx y (List.mem_of_mem_drop hy)

/-- The series-final 14-period ATR is never negative. -/
theorem lastATRof_nonneg (cs : List Candle) : 0 ≤ BTC.lastATRof cs :=
  WEMAcalc_getLastD_nonneg 14 (trueRanges cs) (trueRanges_nonneg cs)

/-- A zero series-final ATR forces every true range of a long-enough series
to be zero. -/
theorem trueRanges_all_zero_of_lastATR_zero (cs : List Candle)
    (hlen : 14 ≤ (trueRanges cs).length) (h0 : BTC.lastATRof cs = 0) :
    ∀ x ∈ trueRanges cs, x = 0 := by
  unfold BTC.lastATRof ATRcalc WEMAcalc at h0
  rw [if_neg (by omega)] at h0
  rw [emaFrom_getLastD] at h0
  have hk0 : (0:ℚ) < 1 / (14:ℚ) := by norm_num
  have hk1 : (1:ℚ) / (14:ℚ) < 1 := by norm_num
  have hnn := trueRanges_nonneg cs
  have hseed : 0 ≤ ((trueRanges cs).take 14).sum / ((14:ℕ):ℚ) := by
    have : 0 ≤ ((trueRanges cs).take 14).sum :=
      List.sum_nonneg (fun y hy => hnn y (List.mem_of_mem_take hy))
    positivity
  obtain ⟨hs0, hd0⟩ := foldl_emaStep_zero hk0 hk1 _ _ hseed
    (fun y hy => hnn y (List.mem_of_mem_drop hy)) h0
  have hsum0 : ((trueRanges cs).take 14).sum = 0 := by
    have h14 : ((14:ℕ):ℚ) ≠ 0 := by norm_num
    field_simp at hs0
    exact hs0
  have htake : ∀ x ∈ (trueRanges cs).take 14, x = 0 :=
    sum_zero_of_nonneg (fun y hy => hnn y (List.mem_of_mem_take hy)) hsum0
  intro x hx
  rw [← List.take_append_drop 14 (trueRanges cs)] at hx
  rcases List.mem_append.mp hx with hx1 | hx2
  · exact htake x hx1
  · exact hd0 x hx2

/-! Claim theorems. -/

/-- C3: for every zone with positive bounds `0 < min < max` and midpoint
entry, `computeSLTP` orders the levels `stopLoss < entry < tp1 < tp2 < tp3`
for BULL and the reverse chain for BEAR. -/
theorem sltp_ordering_C3 (z : BTC.Zone) (h0 : 0 < z.min) (h1 : z.min < z.max)
    (hm : z.midpoint = (z.min + z.max) / 2) :
    (BTC.computeSLTP (some z) "bull").elim False
      (fun s => s.sl < z.midpoint ∧ z.midpoint < s.tp1 ∧ s.tp1 < s.tp2 ∧ s.tp2 < s.tp3) ∧
    (BTC.computeSLTP (some z) "bear").elim False
      (fun s => s.tp3 < s.tp2 ∧ s.tp2 < s.tp1 ∧ s.tp1 < z.midpoint ∧ z.midpoint < s.sl) := by
  have hmid1 : z.min < z.midpoint := by rw [hm]; linarith
  have hmid2 : z.midpoint < z.max := by rw [hm]; linarith
  have hrisk : (0:ℚ) < z.midpoint - z.min * (995/1000) := by nlinarith
  have hriskb : (0:ℚ) < z.max * (1005/1000) - z.midpoint := by nlinarith
  have hb : BTC.computeSLTP (some z) "bull" =
      some { sl := z.min * (995/1000)
             tp1 := z.midpoint + (z.midpoint - z.min * (995/1000))
             tp2 := z.midpoint + 2 * (z.midpoint - z.min * (995/1000))
             tp3 := z.midpoint + 3 * (z.midpoint - z.min * (995/1000))
             risk := z.midpoint - z.min * (995/1000) } := rfl
  have hs : BTC.computeSLTP (some z) "bear" =
      some { sl := z.max * (1005/1000)
             tp1 := z.midpoint - (z.max * (1005/1000) - z.midpoint)
             tp2 := z.midpoint - 2 * (z.max * (1005/1000) - z.midpoint)
             tp3 := z.midpoint - 3 * (z.max * (1005/1000) - z.midpoint)
             risk := z.max * (1005/1000) - z.midpoint } := rfl
  rw [hb, hs]
  exact ⟨⟨by linarith, by linarith, by linarith, by linarith⟩,
    ⟨by linarith, by linarith, by linarith, by linarith⟩⟩

/-- Witness for C3 at the concrete zone `[1, 2]`. -/
theorem sltp_ordering_C3_witness :
    (BTC.computeSLTP (some zoneW) "bull").elim False
      (fun s => s.sl < zoneW.midpoint ∧ zoneW.midpoint < s.tp1 ∧
        s.tp1 < s.tp2 ∧ s.tp2 < s.tp3) ∧
    (BTC.computeSLTP (some zoneW) "bear").elim False
      (fun s => s.tp3 < s.tp2 ∧ s.tp2 < s.tp1 ∧ s.tp1 < zoneW.midpoint ∧
        zoneW.midpoint < s.sl) :=
  sltp_ordering_C3 zoneW (by with_unfolding_all decide) (by with_unfolding_all decide)
    (by with_unfolding_all decide)

/-- C10: series shorter than 30 candles make both regime filters report
chop = false with the diagnostic reason, never an error and never chop. -/
theorem shortSeries_noChop_C10 (cs : List Candle) (symbol : String)
    (h : cs.length < 30) :
    (BTC.computeChopDetails cs).isChop = false ∧
    (BTC.computeChopDetails cs).reason = some "insufficient candles" ∧
    (SOLatr.isChop cs symbol).isChop = false ∧
    (SOLatr.isChop cs symbol).reason = some "insufficient candles" := by
  have hb : BTC.computeChopDetails cs =
      { isChop := false, reason := some "insufficient candles" } := by
    unfold BTC.computeChopDetails
    rw [if_pos h]
  have hmin : (SOLatr.getChopParams symbol).requireMinCandles = 30 := by
    unfold SOLatr.getChopParams
    split <;> rfl
  have hs : SOLatr.isChop cs symbol =
      { isChop := false, reason := some "insufficient candles" } := by
    simp only [SOLatr.isChop]
    rw [hmin, if_pos h]
  rw [hb, hs]
  exact ⟨rfl, rfl, rfl, rfl⟩

/-- Witness for C10 on the empty series. -/
theorem shortSeries_noChop_C10_witness :
    (BTC.computeChopDetails []).isChop = false ∧
    (BTC.computeChopDetails []).reason = some "insufficient candles" ∧
    (SOLatr.isChop [] "SOL/USDT").isChop = false ∧
    (SOLatr.isChop [] "SOL/USDT").reason = some "insufficient candles" :=
  shortSeries_noChop_C10 [] "SOL/USDT" (by decide)

/-- C2 (counterexample): two runs of `runCTWL1H_PREDICT` on the identical
snapshot, invoked at distinct clock readings, return results that are not
bit-identical (the `timestamp` field follows the clock), and the sniper
window flag likewise changes with the clock alone. -/
theorem evaluator_idempotence_C2_cex :
    CTWL.runCTWL1H_PREDICT "BTCUSDT" [] [] [] [] 0 ≠
      CTWL.runCTWL1H_PREDICT "BTCUSDT" [] [] [] [] 1 ∧
    BTC.isInSniperWindow 0 = true ∧ BTC.isInSniperWindow 3600000 = false := by
  refine ⟨by decide, by decide, by decide⟩

/-- C2 (amended): for a fixed snapshot and configuration the evaluator is a
pure function of the snapshot and the invocation clock; erasing the
clock-stamped `timestamp` field makes the two runs bit-identical. -/
theorem evaluator_idempotence_C2_amended (symbol : String)
    (c5m c15m c1h c4h : List Candle) (n1 n2 : ℕ) :
    (CTWL.runCTWL1H_PREDICT symbol c5m c15m c1h c4h n1).stripTime =
      (CTWL.runCTWL1H_PREDICT symbol c5m c15m c1h c4h n2).stripTime := by
  unfold CTWL.runCTWL1H_PREDICT
  dsimp only
  repeat' first | rfl | split

/-- C4 (counterexample): two series that agree on every candle up to and
including index 14 — they differ only in the volume of the later candle 15 —
give different outcomes of the displacement-candle qualification test at
index 14, because the volume baseline is an average over the last fourteen
candles of the whole series. -/
theorem obQualification_C4_cex :
    impulseSeries.take 15 = impulseSeriesLateVolume.take 15 ∧
    BTC.qualifiesOB impulseSeries "bull" 14 = true ∧
    BTC.qualifiesOB impulseSeriesLateVolume "bull" 14 = false := by
  refine ⟨by decide, by with_unfolding_all decide, by with_unfolding_all decide⟩

/-- C4 (amended): the qualification test at index `i` depends only on the
candles at indices `0..i` together with the two series-trailing statistics
that `detectOBFVG` computes from the whole series (the final 14-period ATR
and the trailing volume average). -/
theorem obQualification_C4_amended (s1 s2 : List Candle) (pol : String) (i : ℕ)
    (hpre : s1.take (i + 1) = s2.take (i + 1))
    (hatr : BTC.lastATRof s1 = BTC.lastATRof s2)
    (hvol : BTC.volAvgOf s1 = BTC.volAvgOf s2) :
    BTC.qualifiesOB s1 pol i = BTC.qualifiesOB s2 pol i := by
  simp only [BTC.qualifiesOB]
  rw [hatr, hvol, getD_eq_of_take_eq (le_refl i) hpre,
    getD_eq_of_take_eq (Nat.sub_le i 1) hpre]

/-- Witness for the amended C4: changing only the final open (which affects
neither trailing statistic) preserves the qualification at index 14. -/
theorem obQualification_C4_amended_witness :
    BTC.qualifiesOB impulseSeries "bull" 14 =
      BTC.qualifiesOB impulseSeriesAltOpen "bull" 14 :=
  obQualification_C4_amended impulseSeries impulseSeriesAltOpen "bull" 14
    (by decide) (by with_unfolding_all decide) (by with_unfolding_all decide)

set_option maxRecDepth 4000 in
/-- C6 (counterexample): a 30-candle window on which the four-condition
regime filter of solatr.js — evaluated with its base (non-SOL) thresholds —
finds at least two of the four conditions true (weak net movement, range
overlap and low volume all hold), while the btc.js regime filter, which
evaluates only three conditions and no volume condition, reports
chop = false on the same window. -/
theorem chopMajority_C6_cex :
    2 ≤ (SOLatr.isChop chopCex30 "BTC/USDT").chopScore ∧
    (SOLatr.isChop chopCex30 "BTC/USDT").condWeakMovement = true ∧
    (SOLatr.isChop chopCex30 "BTC/USDT").condOverlap = true ∧
    (SOLatr.isChop chopCex30 "BTC/USDT").condLowVolume = true ∧
    (BTC.computeChopDetails chopCex30).isChop = false := by
  refine ⟨?_, ?_, ?_, ?_, ?_⟩ <;> with_unfolding_all decide

/-- C6 (amended): the solatr regime filter reports chop exactly when at
least two of its four condition flags hold, and the btc regime filter
reports chop exactly when at least two of its three condition flags hold
(it has no volume condition); in both, exactly two conditions give chop and
exactly one does not. -/
theorem chopMajority_C6 (cs : List Candle) (symbol : String) (h : 30 ≤ cs.length) :
    ((SOLatr.isChop cs symbol).isChop = true ↔
      2 ≤ [(SOLatr.isChop cs symbol).condBodyVsAtr,
           (SOLatr.isChop cs symbol).condWeakMovement,
           (SOLatr.isChop cs symbol).condOverlap,
           (SOLatr.isChop cs symbol).condLowVolume].count true) ∧
    ((BTC.computeChopDetails cs).isChop = true ↔
      2 ≤ [(BTC.computeChopDetails cs).condBodyVsAtr,
           (BTC.computeChopDetails cs).condWeakMovement,
           (BTC.computeChopDetails cs).condOverlap].count true) := by
  have hmin : (SOLatr.getChopParams symbol).requireMinCandles = 30 := by
    unfold SOLatr.getChopParams
    split <;> rfl
  have hlen : (ATRcalc 14 cs).length = cs.length - 14 := by
    unfold ATRcalc
    rw [WEMAcalc_length 14 _ (by norm_num) (by rw [trueRanges_length]; omega),
      trueRanges_length]
    omega
  have hslice : (sliceLast 8 (ATRcalc 14 cs)).length = 8 := by
    unfold sliceLast
    rw [List.length_drop]
    omega
  constructor
  · have hsc : (SOLatr.isChop cs symbol).isChop =
        decide (2 ≤ [(SOLatr.isChop cs symbol).condBodyVsAtr,
           (SOLatr.isChop cs symbol).condWeakMovement,
           (SOLatr.isChop cs symbol).condOverlap,
           (SOLatr.isChop cs symbol).condLowVolume].count true) := by
      simp only [SOLatr.isChop]
      rw [hmin, if_neg (by omega)]
    rw [hsc]
    exact decide_eq_true_iff
  · have hsc : (BTC.computeChopDetails cs).isChop =
        decide (2 ≤ [(BTC.computeChopDetails cs).condBodyVsAtr,
           (BTC.computeChopDetails cs).condWeakMovement,
           (BTC.computeChopDetails cs).condOverlap].count true) := by
      simp only [BTC.computeChopDetails]
      rw [if_neg (by omega), if_neg (by omega), if_neg (by omega)]
    rw [hsc]
    exact decide_eq_true_iff

set_option maxRecDepth 4000 in
/-- Witness for the amended C6 on a 30-candle window. -/
theorem chopMajority_C6_witness :
    ((SOLatr.isChop flat30 "SOL/USDT").isChop = true ↔
      2 ≤ [(SOLatr.isChop flat30 "SOL/USDT").condBodyVsAtr,
           (SOLatr.isChop flat30 "SOL/USDT").condWeakMovement,
           (SOLatr.isChop flat30 "SOL/USDT").condOverlap,
           (SOLatr.isChop flat30 "SOL/USDT").condLowVolume].count true) ∧
    ((BTC.computeChopDetails flat30).isChop = true ↔
      2 ≤ [(BTC.computeChopDetails flat30).condBodyVsAtr,
           (BTC.computeChopDetails flat30).condWeakMovement,
           (BTC.computeChopDetails flat30).condOverlap].count true) :=
  chopMajority_C6 flat30 "SOL/USDT" (by decide)

set_option maxRecDepth 4000 in
/-- C1 (counterexample): on `chopCex30` the solatr regime filter reports
chop = true, and the evaluator still sends an alert that carries a zone and
SL/TP levels — chop even promotes the invalid trend into the chop trading
mode; no `NO_TRADE`/`REGIME_CHOP` outcome exists on this input. -/
theorem chopSuppression_C1_cex :
    (SOLatr.isChop chopCex30 "SOL/USDT").isChop = true ∧
    (SOLatr.runSOLatrEval chopCex30 impulseSeriesUp).isSent = true ∧
    (SOLatr.runSOLatrEval chopCex30 impulseSeriesUp).zoneOf.isSome = true ∧
    (SOLatr.runSOLatrEval chopCex30 impulseSeriesUp).sltpOf.isSome = true := by
  refine ⟨?_, ?_, ?_, ?_⟩ <;> with_unfolding_all decide

/-- C1 (amended): chop never suppresses the signal.  Whenever the solatr
regime filter reports chop on a snapshot with an invalid trend, a bullish
last intraday candle and a detected buy zone, the evaluator still sends the
alert, carrying the zone, the SL/TP levels and the chop diagnostics;
there is no `REGIME_CHOP` reason in the code. -/
theorem chopSuppression_C1_amended (daily intraday : List Candle)
    (hchop : (SOLatr.isChop daily "SOL/USDT").isChop = true)
    (hinv : (SOLatr.detectTrend daily).trend = "invalid")
    (hdir : (intraday.getLastD default).c > (intraday.getLastD default).o)
    (hz : (SOLatr.computeBuyZone daily intraday).isSome = true) :
    (SOLatr.runSOLatrEval daily intraday).isSent = true ∧
    (SOLatr.runSOLatrEval daily intraday).zoneOf.isSome = true ∧
    (SOLatr.runSOLatrEval daily intraday).sltpOf.isSome = true ∧
    (SOLatr.runSOLatrEval daily intraday).chopOf =
      some (SOLatr.isChop daily "SOL/USDT") := by
  obtain ⟨z, hz2⟩ := Option.isSome_iff_exists.mp hz
  simp only [SOLatr.runSOLatrEval]
  rw [hinv, hchop]
  simp only [String.reduceEq, eq_self_iff_true, and_true, true_and, and_false,
    false_and, if_true, if_false, reduceIte]
  rw [if_pos hdir]
  simp only [String.reduceEq, reduceIte, hz2]
  exact ⟨rfl, rfl, rfl, rfl⟩

set_option maxRecDepth 4000 in
/-- Witness for the amended C1 at the concrete chop snapshot. -/
theorem chopSuppression_C1_amended_witness :
    (SOLatr.runSOLatrEval chopCex30 impulseSeriesUp).isSent = true ∧
    (SOLatr.runSOLatrEval chopCex30 impulseSeriesUp).zoneOf.isSome = true ∧
    (SOLatr.runSOLatrEval chopCex30 impulseSeriesUp).sltpOf.isSome = true ∧
    (SOLatr.runSOLatrEval chopCex30 impulseSeriesUp).chopOf =
      some (SOLatr.isChop chopCex30 "SOL/USDT") :=
  chopSuppression_C1_amended chopCex30 impulseSeriesUp
    (by with_unfolding_all decide) (by with_unfolding_all decide)
    (by with_unfolding_all decide) (by with_unfolding_all decide)

/-- Inversion of the `detectOBFVG` backward scan: a returned order block
comes from a qualifying index in the scanned range, and its fields are the
extremes, index and ATR-normalised body of that candle. -/
theorem scanOB_some (cs : List Candle) (pol : String) :
    ∀ (i : ℕ) (ob : BTC.OB), BTC.scanOB cs pol i = some ob →
      ∃ j, 1 ≤ j ∧ j ≤ i ∧ BTC.qualifiesOB cs pol j = true ∧
        ob.obLow = (cs.getD j default).l ∧ ob.obHigh = (cs.getD j default).h ∧
        ob.originIndex = j ∧
        ob.strength =
          |(cs.getD j default).c - (cs.getD j default).o| / BTC.lastATRof cs := by
  intro i
  induction i with
  | zero =>
    intro ob h
    simp [BTC.scanOB] at h
  | succ i ih =>
    intro ob h
    unfold BTC.scanOB at h
    split at h
    · rename_i hq
      have hob := Option.some.inj h
      subst hob
      exact ⟨i + 1, by omega, le_refl _, hq, rfl, rfl, rfl, rfl⟩
    · obtain ⟨j, hj1, hj2, rest⟩ := ih ob h
      exact ⟨j, hj1, by omega, rest⟩

/-- On a well-formed series any order block returned by `detectOBFVG`, for
either polarity, spans strictly more than one series-final ATR from low to
high and carries a nonnegative ATR-normalised strength. -/
theorem detectOBFVG_bounds (intraday : List Candle) (pol : String) (ob : BTC.OB)
    (hwf : WFseries intraday)
    (hob : BTC.detectOBFVG intraday pol = some ob) :
    BTC.lastATRof intraday < ob.obHigh - ob.obLow ∧ 0 ≤ ob.strength := by
  unfold BTC.detectOBFVG at hob
  split at hob
  · exact absurd hob (by simp)
  · rename_i hlen
    obtain ⟨j, hj1, hj2, hq, hlow, hhigh, horig, hstr⟩ :=
      scanOB_some intraday pol _ ob hob
    have hjlen : j < intraday.length := by omega
    have hmem : intraday.getD j default ∈ intraday := by
      rw [List.getD_eq_getElem _ _ hjlen]
      exact List.getElem_mem hjlen
    obtain ⟨hlo, hoh, hlc, hch⟩ := hwf _ hmem
    simp only [BTC.qualifiesOB, Bool.and_eq_true, Bool.or_eq_true,
      decide_eq_true_eq] at hq
    have hbody : |(intraday.getD j default).c - (intraday.getD j default).o| >
        BTC.lastATRof intraday := hq.1.1
    have hbw : |(intraday.getD j default).c - (intraday.getD j default).o| ≤
        (intraday.getD j default).h - (intraday.getD j default).l := by
      rw [abs_le]
      constructor <;> linarith
    refine ⟨?_, ?_⟩
    · rw [hlow, hhigh]
      linarith
    · rw [hstr]
      exact div_nonneg (abs_nonneg _) (lastATRof_nonneg intraday)

/-- C5: for either polarity, whenever the zone detector of btc.js returns a
zone on a well-formed intraday series (`computeBuyZone` serving the bull
polarity, `computeSellZone` the bear polarity), the returned zone satisfies
`min < max` and its strength is nonnegative. -/
theorem zoneInvariant_C5 (daily intraday : List Candle) (trend : String)
    (z : BTC.Zone) (hwf : WFseries intraday)
    (hz : BTC.computeBuyZone daily intraday trend = some z ∨
          BTC.computeSellZone daily intraday trend = some z) :
    z.min < z.max ∧ 0 ≤ z.strength := by
  have hatr : 0 ≤ BTC.lastATRof intraday := lastATRof_nonneg intraday
  cases hz with
  | inl hz =>
    unfold BTC.computeBuyZone at hz
    cases hob : BTC.detectOBFVG intraday "bull" with
    | none => rw [hob] at hz; exact absurd hz (by simp)
    | some ob =>
      rw [hob] at hz
      obtain ⟨hgap, hstr0⟩ := detectOBFVG_bounds intraday "bull" ob hwf hob
      have hmain : ob.obLow - (1/4) * BTC.lastATRof intraday <
          ob.obHigh + (1/10) * BTC.lastATRof intraday := by linarith
      dsimp only at hz
      split at hz
      · have hzz := Option.some.inj hz
        subst hzz
        exact ⟨hmain, hstr0⟩
      · have hzz := Option.some.inj hz
        subst hzz
        exact ⟨hmain, hstr0⟩
  | inr hz =>
    unfold BTC.computeSellZone at hz
    cases hob : BTC.detectOBFVG intraday "bear" with
    | none => rw [hob] at hz; exact absurd hz (by simp)
    | some ob =>
      rw [hob] at hz
      obtain ⟨hgap, hstr0⟩ := detectOBFVG_bounds intraday "bear" ob hwf hob
      have hmain : ob.obLow - (1/10) * BTC.lastATRof intraday <
          ob.obHigh + (1/4) * BTC.lastATRof intraday := by linarith
      dsimp only at hz
      split at hz
      · have hzz := Option.some.inj hz
        subst hzz
        exact ⟨hmain, hstr0⟩
      · have hzz := Option.some.inj hz
        subst hzz
        exact ⟨hmain, hstr0⟩

set_option maxRecDepth 2000 in
/-- Evaluation helper: the zone that `computeBuyZone` computes on the
impulse series, established stepwise (order block, then ATR, then the
zone record). -/
theorem computeBuyZone_impulse :
    BTC.computeBuyZone [] impulseSeries "bull" = some zoneLit := by
  have hob : BTC.detectOBFVG impulseSeries "bull" =
      some { obLow := 100, obHigh := 110, originIndex := 14, strength := 245/62,
             type := "bull" } := by with_unfolding_all decide
  have hatr : BTC.lastATRof impulseSeries = 124/49 := by with_unfolding_all decide
  unfold BTC.computeBuyZone
  rw [hob, hatr]
  dsimp only
  rw [if_neg (by with_unfolding_all decide)]
  simp only [zoneLit, Option.some.injEq, BTC.Zone.mk.injEq]
  norm_num

set_option maxRecDepth 2000 in
/-- Evaluation helper: the zone that `computeSellZone` computes on the
bearish impulse series, established stepwise (order block, then ATR, then
the later-higher-high test and the bearish retest scan). -/
theorem computeSellZone_bear :
    BTC.computeSellZone [] bearSeries "bear" = some zoneSellLit := by
  have hob : BTC.detectOBFVG bearSeries "bear" =
      some { obLow := 100, obHigh := 110, originIndex := 14, strength := 245/62,
             type := "bear" } := by with_unfolding_all decide
  have hatr : BTC.lastATRof bearSeries = 124/49 := by with_unfolding_all decide
  unfold BTC.computeSellZone
  rw [hob, hatr]
  dsimp only
  rw [if_neg (by with_unfolding_all decide)]
  simp only [zoneSellLit, Option.some.injEq, BTC.Zone.mk.injEq]
  refine ⟨by norm_num, by norm_num, by norm_num, by norm_num, trivial, ?_⟩
  with_unfolding_all decide

set_option maxRecDepth 2000 in
/-- Witness for C5 at the bullish and the bearish impulse series and their
detected zones, exercising both polarities. -/
theorem zoneInvariant_C5_witness :
    (zoneLit.min < zoneLit.max ∧ 0 ≤ zoneLit.strength) ∧
    (zoneSellLit.min < zoneSellLit.max ∧ 0 ≤ zoneSellLit.strength) :=
  ⟨zoneInvariant_C5 [] impulseSeries "bull" zoneLit (by with_unfolding_all decide)
      (Or.inl computeBuyZone_impulse),
   zoneInvariant_C5 [] bearSeries "bear" zoneSellLit (by with_unfolding_all decide)
      (Or.inr computeSellZone_bear)⟩

/-- When the qualification test fails at every positive index, the backward
scan of `detectOBFVG` returns none. -/
theorem scanOB_none (cs : List Candle) (pol : String)
    (hq : ∀ j, 1 ≤ j → BTC.qualifiesOB cs pol j = false) :
    ∀ i, BTC.scanOB cs pol i = none := by
  intro i
  induction i with
  | zero => rfl
  | succ i ih =>
    unfold BTC.scanOB
    rw [hq (i + 1) (by omega)]
    simpa using ih

/-- C9: a zero series-final ATR makes `detectOBFVG` report none on any
well-formed series (no qualification can pass, so no division by the zero
ATR reaches the strength field), and the chop deviation diagnostic is the
null value whenever its ATR average is not positive. -/
theorem zeroVolGuard_C9 (cs ds : List Candle) (pol : String)
    (hwf : WFseries cs) (h0 : BTC.lastATRof cs = 0)
    (hd : ¬ 0 < (BTC.computeChopDetails ds).atrAvg) :
    BTC.detectOBFVG cs pol = none ∧ (BTC.computeChopDetails ds).deviation = none := by
  constructor
  · unfold BTC.detectOBFVG
    split
    · rfl
    · rename_i hlen
      have htrlen : 14 ≤ (trueRanges cs).length := by
        rw [trueRanges_length]; omega
      have hall := trueRanges_all_zero_of_lastATR_zero cs htrlen h0
      apply scanOB_none
      intro j hj
      by_cases hjl : j < cs.length
      · have hj1 : (j - 1) + 1 < cs.length := by omega
        have hmemtr : (trueRanges cs).getD (j - 1) 0 ∈ trueRanges cs := by
          have hlt : j - 1 < (trueRanges cs).length := by
            rw [trueRanges_length]; omega
          rw [List.getD_eq_getElem _ _ hlt]
          exact List.getElem_mem hlt
        have htr0 : trOf (cs.getD (j - 1) default) (cs.getD ((j - 1) + 1) default) = 0 := by
          rw [← trueRanges_getD cs (j - 1) hj1]
          exact hall _ hmemtr
        have hj2 : (j - 1) + 1 = j := by omega
        rw [hj2] at htr0
        unfold trOf at htr0
        have hcomp1 : |(cs.getD j default).h - (cs.getD (j - 1) default).c| ≤ 0 := by
          calc |(cs.getD j default).h - (cs.getD (j - 1) default).c|
              ≤ max |(cs.getD j default).h - (cs.getD (j - 1) default).c|
                  |(cs.getD j default).l - (cs.getD (j - 1) default).c| := le_max_left _ _
            _ ≤ max ((cs.getD j default).h - (cs.getD j default).l)
                  (max |(cs.getD j default).h - (cs.getD (j - 1) default).c|
                    |(cs.getD j default).l - (cs.getD (j - 1) default).c|) := le_max_right _ _
            _ = 0 := htr0
        have hcomp2 : |(cs.getD j default).l - (cs.getD (j - 1) default).c| ≤ 0 := by
          calc |(cs.getD j default).l - (cs.getD (j - 1) default).c|
              ≤ max |(cs.getD j default).h - (cs.getD (j - 1) default).c|
                  |(cs.getD j default).l - (cs.getD (j - 1) default).c| := le_max_right _ _
            _ ≤ max ((cs.getD j default).h - (cs.getD j default).l)
                  (max |(cs.getD j default).h - (cs.getD (j - 1) default).c|
                    |(cs.getD j default).l - (cs.getD (j - 1) default).c|) := le_max_right _ _
            _ = 0 := htr0
        have hhl : (cs.getD j default).h = (cs.getD j default).l := by
          have a1 := abs_nonneg ((cs.getD j default).h - (cs.getD (j - 1) default).c)
          have a2 := abs_nonneg ((cs.getD j default).l - (cs.getD (j - 1) default).c)
          have e1 : |(cs.getD j default).h - (cs.getD (j - 1) default).c| = 0 := le_antisymm hcomp1 a1
          have e2 : |(cs.getD j default).l - (cs.getD (j - 1) default).c| = 0 := le_antisymm hcomp2 a2
          rw [abs_eq_zero] at e1 e2
          linarith
        have hmem : cs.getD j default ∈ cs := by
          rw [List.getD_eq_getElem _ _ hjl]
          exact List.getElem_mem hjl
        obtain ⟨hlo, hoh, hlc, hch⟩ := hwf _ hmem
        have hbody : |(cs.getD j default).c - (cs.getD j default).o| = 0 := by
          rw [abs_eq_zero]
          linarith
        simp only [BTC.qualifiesOB, h0, hbody]
        simp
      · have hdef : cs.getD j default = default := by
          rw [List.getD_eq_getElem?_getD, List.getElem?_eq_none (by omega)]
          rfl
        simp only [BTC.qualifiesOB, h0, hdef]
        simp [Inhabited.default]
  · revert hd
    unfold BTC.computeChopDetails
    split
    · intro _; rfl
    · dsimp only
      split
      · intro _; rfl
      · split
        · intro _; rfl
        · dsimp only
          intro hd
          rw [if_neg hd]

set_option maxRecDepth 2000 in
/-- Witness for C9 at a flat sixteen-candle series whose ATR is exactly
zero. -/
theorem zeroVolGuard_C9_witness :
    BTC.detectOBFVG flatPoint16 "bull" = none ∧
    (BTC.computeChopDetails []).deviation = none :=
  zeroVolGuard_C9 flatPoint16 [] "bull" (by with_unfolding_all decide)
    (by with_unfolding_all decide) (by with_unfolding_all decide)

/-- Inversion of the `validateRetest` descending loop: a returned retest is
the most recent hit in the visited range. -/
theorem retestLoop_some (cs : List Candle) (zone : BTC.ZoneMM) (pol : String) (lo : ℕ) :
    ∀ (k : ℕ) (r : BTC.Retest), BTC.retestLoop cs zone pol lo k = some r →
      ∃ m, m ≤ k ∧ r.index = lo + m ∧ r.candle = cs.getD (lo + m) default ∧
        BTC.retestHit cs zone pol (lo + m) = true ∧
        ∀ m2, m < m2 → m2 ≤ k → BTC.retestHit cs zone pol (lo + m2) = false := by
  intro k
  induction k with
  | zero =>
    intro r h
    unfold BTC.retestLoop at h
    split at h
    · rename_i hh
      have h2 := Option.some.inj h
      subst h2
      exact ⟨0, le_refl 0, rfl, rfl, hh, fun m2 hma hmb => absurd hmb (by omega)⟩
    · exact absurd h (by simp)
  | succ k ih =>
    intro r h
    unfold BTC.retestLoop at h
    split at h
    · rename_i hh
      have h2 := Option.some.inj h
      subst h2
      exact ⟨k + 1, le_refl _, rfl, rfl, hh,
        fun m2 hma hmb => absurd hmb (by omega)⟩
    · rename_i hh
      obtain ⟨m, hm1, hm2, hm3, hm4, hm5⟩ := ih r h
      refine ⟨m, by omega, hm2, hm3, hm4, ?_⟩
      intro m2 hma hmb
      by_cases hcase : m2 = k + 1
      · subst hcase
        cases hb : BTC.retestHit cs zone pol (lo + (k + 1)) with
        | false => rfl
        | true => exact absurd hb hh
      · exact hm5 m2 hma (by omega)

/-- Decomposition of a positive retest check into its touch, wick and close
conditions. -/
theorem retestHit_props (cs : List Candle) (zone : BTC.ZoneMM) (pol : String) (i : ℕ)
    (h : BTC.retestHit cs zone pol i = true) :
    (cs.getD i default).h ≥ zone.min ∧ (cs.getD i default).l ≤ zone.max ∧
    (pol = "bear" →
      (cs.getD i default).h - max (cs.getD i default).o (cs.getD i default).c >
        (2/5) * ((cs.getD i default).h - (cs.getD i default).l) ∧
      (cs.getD i default).c < (cs.getD i default).o) ∧
    (pol ≠ "bear" →
      min (cs.getD i default).o (cs.getD i default).c - (cs.getD i default).l >
        (2/5) * ((cs.getD i default).h - (cs.getD i default).l) ∧
      (cs.getD i default).c > (cs.getD i default).o) := by
  simp only [BTC.retestHit] at h
  by_cases hp : pol = "bear"
  · rw [if_pos hp] at h
    simp only [Bool.and_eq_true, decide_eq_true_eq] at h
    exact ⟨h.1.1, h.1.2, fun _ => ⟨h.2.1, h.2.2⟩, fun hne => absurd hp hne⟩
  · rw [if_neg hp] at h
    simp only [Bool.and_eq_true, decide_eq_true_eq] at h
    exact ⟨h.1.1, h.1.2, fun hb => absurd hb hp, fun _ => ⟨h.2.1, h.2.2⟩⟩

/-- C8: a retest returned by `validateRetest` lies in the ten-candle
lookback window, touches the zone, shows the rejecting-side wick above
two-fifths of the candle range with a confirming close, and is the most
recent candle passing the check. -/
theorem retest_props_C8 (cs : List Candle) (zone : BTC.ZoneMM) (pol : String)
    (r : BTC.Retest) (h : BTC.validateRetest cs zone pol = some r) :
    cs.length - 10 ≤ r.index ∧ r.index < cs.length ∧
    r.candle = cs.getD r.index default ∧
    r.candle.h ≥ zone.min ∧ r.candle.l ≤ zone.max ∧
    (pol = "bear" →
      r.candle.h - max r.candle.o r.candle.c > (2/5) * (r.candle.h - r.candle.l) ∧
      r.candle.c < r.candle.o) ∧
    (pol ≠ "bear" →
      min r.candle.o r.candle.c - r.candle.l > (2/5) * (r.candle.h - r.candle.l) ∧
      r.candle.c > r.candle.o) ∧
    ∀ j, r.index < j → j < cs.length → BTC.retestHit cs zone pol j = false := by
  unfold BTC.validateRetest at h
  split at h
  · exact absurd h (by simp)
  · rename_i hne
    obtain ⟨m, hm1, hm2, hm3, hm4, hm5⟩ := retestLoop_some cs zone pol _ _ r h
    have hlen : 1 ≤ cs.length := by omega
    rw [← hm2] at hm3 hm4
    obtain ⟨hp1, hp2, hp3, hp4⟩ := retestHit_props cs zone pol r.index hm4
    rw [← hm3] at hp1 hp2 hp3 hp4
    refine ⟨by omega, by omega, hm3, hp1, hp2, hp3, hp4, ?_⟩
    intro j hj1 hj2
    have hj3 : j = (cs.length - 10) + (j - (cs.length - 10)) := by omega
    rw [hj3]
    exact hm5 _ (by omega) (by omega)

set_option maxRecDepth 2000 in
/-- Witness for C8 at the concrete retest series and zone `[100, 101]`. -/
theorem retest_props_C8_witness :
    retestSeries.length - 10 ≤ retestLit.index ∧ retestLit.index < retestSeries.length ∧
    retestLit.candle = retestSeries.getD retestLit.index default ∧
    retestLit.candle.h ≥ (⟨100, 101⟩ : BTC.ZoneMM).min ∧
    retestLit.candle.l ≤ (⟨100, 101⟩ : BTC.ZoneMM).max ∧
    ("bull" = "bear" →
      retestLit.candle.h - max retestLit.candle.o retestLit.candle.c >
        (2/5) * (retestLit.candle.h - retestLit.candle.l) ∧
      retestLit.candle.c < retestLit.candle.o) ∧
    ("bull" ≠ "bear" →
      min retestLit.candle.o retestLit.candle.c - retestLit.candle.l >
        (2/5) * (retestLit.candle.h - retestLit.candle.l) ∧
      retestLit.candle.c > retestLit.candle.o) ∧
    ∀ j, retestLit.index < j → j < retestSeries.length →
      BTC.retestHit retestSeries ⟨100, 101⟩ "bull" j = false :=
  retest_props_C8 retestSeries ⟨100, 101⟩ "bull" retestLit
    (by with_unfolding_all decide)

/-- C7: on a closes array at least as long as the deepest moving average,
`detectTrend` reports bull exactly when at least two bullish layers hold,
bear exactly when at least two bearish layers and fewer than two bullish
layers hold, and otherwise invalid with the layers-not-aligned reason. -/
theorem trendLayers_C7 (daily : List Candle) (h : 200 ≤ daily.length) :
    ((BTC.detectTrend daily).trend = "bull" ↔ 2 ≤ BTC.bullishLayers daily) ∧
    ((BTC.detectTrend daily).trend = "bear" ↔
      2 ≤ BTC.bearishLayers daily ∧ BTC.bullishLayers daily < 2) ∧
    (BTC.bullishLayers daily < 2 → BTC.bearishLayers daily < 2 →
      (BTC.detectTrend daily).trend = "invalid" ∧
      (BTC.detectTrend daily).reason = some "Layers not aligned") := by
  have hlen : ¬ (daily.map (·.c)).length < BTC.EMA_STACK.getD 3 0 := by
    simp only [List.length_map]
    show ¬ daily.length < 200
    omega
  unfold BTC.detectTrend
  rw [if_neg hlen]
  by_cases hbull : 2 ≤ BTC.bullishLayers daily
  · rw [if_pos hbull]
    dsimp only
    refine ⟨⟨fun _ => hbull, fun _ => rfl⟩, ?_, ?_⟩
    · constructor
      · intro hc; exact absurd hc (by decide)
      · intro hc; omega
    · intro hb _; omega
  · rw [if_neg hbull]
    by_cases hbear : 2 ≤ BTC.bearishLayers daily
    · rw [if_pos hbear]
      dsimp only
      refine ⟨⟨fun hc => absurd hc (by decide), fun hc => absurd hc hbull⟩,
        ⟨fun _ => ⟨hbear, by omega⟩, fun _ => rfl⟩, ?_⟩
      intro _ hb
      omega
    · rw [if_neg hbear]
      dsimp only
      exact ⟨⟨fun hc => absurd hc (by decide), fun hc => absurd hc hbull⟩,
        ⟨fun hc => absurd hc (by decide), fun hc => absurd hc.1 hbear⟩,
        fun _ _ => ⟨rfl, rfl⟩⟩

set_option maxRecDepth 2000 in
/-- Witness for C7 on two hundred identical daily candles. -/
theorem trendLayers_C7_witness :
    ((BTC.detectTrend flatDaily200).trend = "bull" ↔
      2 ≤ BTC.bullishLayers flatDaily200) ∧
    ((BTC.detectTrend flatDaily200).trend = "bear" ↔
      2 ≤ BTC.bearishLayers flatDaily200 ∧ BTC.bullishLayers flatDaily200 < 2) ∧
    (BTC.bullishLayers flatDaily200 < 2 → BTC.bearishLayers flatDaily200 < 2 →
      (BTC.detectTrend flatDaily200).trend = "invalid" ∧
      (BTC.detectTrend flatDaily200).reason = some "Layers not aligned") :=
  trendLayers_C7 flatDaily200 (by simp [flatDaily200])
